import Mathlib

/-!
# Verification of `qam/margin.py`

Shallow embedding of the surface-distance pipeline of the `qam` package
(`compute_bounding_box`, `crop_mask`, `compute_distances`,
`summarize_surface_dists` from `src/qam/margin.py`) together with proofs
of the specified properties.

Modelling conventions:

* A numpy boolean 3-D array is a `Vol`: a shape (per-axis extents) plus a
  `Bool`-valued function on integer indices.  All reads go through
  `Vol.get`, which returns `false` outside the shape; this also models
  `scipy.ndimage.binary_erosion`'s default `border_value=0`.
* Float arithmetic is idealised: voxel spacings and thresholds are exact
  rationals, distance-map values live in `EReal` so that the `np.Inf`
  sentinel of the degenerate (empty-shell) branch is `⊤`.
* `scipy.ndimage.distance_transform_edt(~borders, sampling=spacing)` is
  the exact Euclidean distance to the nearest `true` voxel of `borders`:
  the square root of the minimum, over boundary voxels `s`, of
  `Σᵢ ((pᵢ - sᵢ) * spacingᵢ)²`.  The minimum of the squared distances is
  computed in `ℚ` (`edtSq`) and the square root is applied afterwards,
  which is the same value since `Real.sqrt` is monotone.
* Python's `UnboundLocalError` (the reference to `distmask_pred` in the
  returned dict when `borders_pred` is empty and the variable was never
  assigned) and the `ValueError` raised by `np.min` of an empty index
  array inside `compute_bounding_box` are modelled with `Except`.
-/

set_option maxHeartbeats 1000000

namespace QAM

/-- A voxel index in 3-D, axis order `(x0, x1, x2)`. -/
abbrev Idx : Type := ℤ × ℤ × ℤ

/-- A binary 3-D volume: per-axis extents plus voxel data. -/
structure Vol where
  shape : ℕ × ℕ × ℕ
  data : Idx → Bool

/-- Bounds check of an index against a shape. -/
def inShape (s : ℕ × ℕ × ℕ) (p : Idx) : Bool :=
  decide (0 ≤ p.1) && decide (p.1 < (s.1 : ℤ)) &&
  (decide (0 ≤ p.2.1) && decide (p.2.1 < (s.2.1 : ℤ))) &&
  (decide (0 ≤ p.2.2) && decide (p.2.2 < (s.2.2 : ℤ)))

/-- Bounds-checked read of a volume; `false` outside the shape. -/
def Vol.get (v : Vol) (p : Idx) : Bool :=
  inShape v.shape p && v.data p

/-- All indices of a shape in row-major (C) order, the order in which numpy
boolean indexing (`distmap[borders > 0]`) enumerates voxels. -/
def voxelList (s : ℕ × ℕ × ℕ) : List Idx :=
  (List.range s.1).flatMap fun i =>
    (List.range s.2.1).flatMap fun j =>
      (List.range s.2.2).map fun (k : ℕ) => ((i : ℤ), ((j : ℤ), (k : ℤ)))

/-- Offsets of the structuring element
`scipy.ndimage.generate_binary_structure(3, connectivity)`: all offsets in
`{-1,0,1}³` whose taxicab norm is at most `connectivity`. -/
def structOffsets (conn : ℕ) : List Idx :=
  (([-1, 0, 1] : List ℤ).flatMap fun a =>
    (([-1, 0, 1] : List ℤ).flatMap fun b =>
      (([-1, 0, 1] : List ℤ).map fun c => (a, (b, c))))).filter
    fun o => decide (o.1.natAbs + o.2.1.natAbs + o.2.2.natAbs ≤ conn)

/-- `scipy.ndimage.binary_erosion` at one voxel (with `border_value = 0`:
out-of-bounds neighbours count as background). -/
def erodeAt (v : Vol) (conn : ℕ) (p : Idx) : Bool :=
  (structOffsets conn).all fun o => v.get (p.1 + o.1, (p.2.1 + o.2.1, p.2.2 + o.2.2))

/-- The boundary shell at one voxel: `mask ^ binary_erosion(mask)`
(lines `border_inside = ndimage.binary_erosion(...)`;
`borders = mask ^ border_inside`). -/
def shellAt (v : Vol) (conn : ℕ) (p : Idx) : Bool :=
  xor (v.get p) (erodeAt v conn p)

/-- The boundary-shell volume `mask ^ binary_erosion(mask)`. -/
def shellVol (v : Vol) (conn : ℕ) : Vol :=
  ⟨v.shape, fun p => shellAt v conn p⟩

/-- The boundary-shell voxels, in row-major order. -/
def shellVoxels (v : Vol) (conn : ℕ) : List Idx :=
  (voxelList v.shape).filter (shellAt v conn)

/-- Squared physical distance between two voxel indices under a spacing. -/
def sqDist (sp : ℚ × ℚ × ℚ) (p q : Idx) : ℚ :=
  (((p.1 - q.1 : ℤ) : ℚ) * sp.1) ^ 2 +
  (((p.2.1 - q.2.1 : ℤ) : ℚ) * sp.2.1) ^ 2 +
  (((p.2.2 - q.2.2 : ℤ) : ℚ) * sp.2.2) ^ 2

/-- Binary minimum on `ℚ`, spelled with `if` so that it evaluates inside
the kernel; equal to `min` (`minRat_eq_min`). -/
def minRat (a b : ℚ) : ℚ := if a ≤ b then a else b

/-- Minimum of a rational list (`0` on the empty list). -/
def minQ : List ℚ → ℚ
  | [] => 0
  | x :: xs => xs.foldl minRat x

/-- The squared value of the exact Euclidean distance transform
`distance_transform_edt(~borders, sampling=spacing)` at `p`: the minimum
squared physical distance from `p` to a boundary voxel.  The `compute_distances`
code only evaluates the transform of a non-empty shell for the two region
maps; the unconditional exclusion-zone transform may see an empty shell,
where this returns the default `0` — no theorem below depends on the
transform's value on a shell-free input. -/
def edtSq (shell : List Idx) (sp : ℚ × ℚ × ℚ) (p : Idx) : ℚ :=
  minQ (shell.map (sqDist sp p))

/-- The exact Euclidean distance-transform value at `p` (in physical units). -/
noncomputable def edt (shell : List Idx) (sp : ℚ × ℚ × ℚ) (p : Idx) : ℝ :=
  Real.sqrt ((edtSq shell sp p : ℚ) : ℝ)

/-- The sign mask `distmask = mask.astype(np.int8); distmask[distmask == 0] = -1`:
`1` on foreground voxels, `-1` on background voxels. -/
def distmaskOf (v : Vol) (p : Idx) : ℤ :=
  if v.get p then 1 else -1

/-- The signed distance map of one region
(lines 88–95 / 97–104 of `margin.py`, for `mask_gt` and `mask_pred` alike):
if the region's boundary shell is non-empty, the Euclidean distance
transform of the shell's complement multiplied voxel-wise by the sign mask;
otherwise the `np.Inf` sentinel everywhere. -/
noncomputable def signedDistMap (v : Vol) (conn : ℕ) (sp : ℚ × ℚ × ℚ) (p : Idx) : EReal :=
  if shellVoxels v conn = [] then ⊤
  else (((distmaskOf v p : ℝ) * edt (shellVoxels v conn) sp p : ℝ) : EReal)

/-- The exclusion zone's signed distance map (computed unconditionally in the
`exclusion_zone is not None` branch, with no empty-shell guard). -/
noncomputable def exclusionDistMap (ez : Vol) (conn : ℕ) (sp : ℚ × ℚ × ℚ) (p : Idx) : EReal :=
  (((distmaskOf ez p : ℝ) * edt (shellVoxels ez conn) sp p : ℝ) : EReal)

/-- Errors surfaced by the pipeline: the `ValueError` of `np.min` on an empty
nonzero-index array in `compute_bounding_box`, the `UnboundLocalError` on
`distmask_pred` in `compute_distances`' return dict, and the `ValueError`
of `np.nanmin` on an empty distance list in `summarize_surface_dists`. -/
inductive Err
  | emptyUnion
  | distmaskPredUnbound
  | emptyDistanceList
  deriving DecidableEq

/-- Element-wise union `(mask_gt | mask_pred) | exclusion_zone`. -/
def unionVol (a b c : Vol) : Vol :=
  ⟨a.shape, fun p => a.get p || b.get p || c.get p⟩

/-- Indices on axis 0 where the maximum projection
`np.max(np.max(mask_all, axis=2), axis=1)` is true. -/
def nonzero0 (v : Vol) : List ℕ :=
  (List.range v.shape.1).filter fun i =>
    (List.range v.shape.2.1).any fun j =>
      (List.range v.shape.2.2).any fun k => v.get ((i : ℤ), ((j : ℤ), (k : ℤ)))

/-- Indices on axis 1 where the maximum projection is true. -/
def nonzero1 (v : Vol) : List ℕ :=
  (List.range v.shape.2.1).filter fun j =>
    (List.range v.shape.1).any fun i =>
      (List.range v.shape.2.2).any fun k => v.get ((i : ℤ), ((j : ℤ), (k : ℤ)))

/-- Indices on axis 2 where the maximum projection is true. -/
def nonzero2 (v : Vol) : List ℕ :=
  (List.range v.shape.2.2).filter fun k =>
    (List.range v.shape.1).any fun i =>
      (List.range v.shape.2.1).any fun j => v.get ((i : ℤ), ((j : ℤ), (k : ℤ)))

/-- Minimum of a `ℕ` list (`np.min`; `0` default never used on `[]`). -/
def minNat : List ℕ → ℕ
  | [] => 0
  | x :: xs => xs.foldl min x

/-- Maximum of a `ℕ` list (`np.max`; `0` default never used on `[]`). -/
def maxNat : List ℕ → ℕ
  | [] => 0
  | x :: xs => xs.foldl max x

/-- `compute_bounding_box(mask_gt, mask_pred, exclusion_zone)`: the minimal
axis-aligned box (inclusive min and max corners) of the union of the three
volumes; `np.min` of an empty nonzero-index list raises, modelled as
`Err.emptyUnion`. -/
def compute_bounding_box (mask_gt mask_pred exclusion_zone : Vol) :
    Except Err (Idx × Idx) :=
  let mask_all := unionVol mask_gt mask_pred exclusion_zone
  match nonzero0 mask_all, nonzero1 mask_all, nonzero2 mask_all with
  | [], _, _ => .error .emptyUnion
  | _ :: _, [], _ => .error .emptyUnion
  | _ :: _, _ :: _, [] => .error .emptyUnion
  | l0@(_ :: _), l1@(_ :: _), l2@(_ :: _) =>
    .ok (((minNat l0 : ℤ), ((minNat l1 : ℤ), (minNat l2 : ℤ))),
         ((maxNat l0 : ℤ), ((maxNat l1 : ℤ), (maxNat l2 : ℤ))))

/-- `crop_mask(mask, bbox_min, bbox_max)`: a volume of shape
`(bbox_max - bbox_min) + 2` per axis whose indices `[0 .. len-2)` hold the
source sub-volume `[bbox_min .. bbox_max]` and whose last slice per axis is
left background. -/
def crop_mask (mask : Vol) (bbox_min bbox_max : Idx) : Vol :=
  { shape := ((bbox_max.1 - bbox_min.1).toNat + 2,
      ((bbox_max.2.1 - bbox_min.2.1).toNat + 2,
       (bbox_max.2.2 - bbox_min.2.2).toNat + 2))
    data := fun p =>
      decide (0 ≤ p.1 ∧ p.1 ≤ bbox_max.1 - bbox_min.1) &&
      decide (0 ≤ p.2.1 ∧ p.2.1 ≤ bbox_max.2.1 - bbox_min.2.1) &&
      decide (0 ≤ p.2.2 ∧ p.2.2 ≤ bbox_max.2.2 - bbox_min.2.2) &&
      mask.get (bbox_min.1 + p.1, (bbox_min.2.1 + p.2.1, bbox_min.2.2 + p.2.2)) }

/-- The optional cropping stage at the top of `compute_distances`: when
`crop` is set, compute the bounding box (of `mask_gt | mask_pred | exclusion_zone`,
or of `mask_gt | mask_pred | mask_gt` when no exclusion zone is given) and
crop all supplied volumes to it. -/
def cropPhase (mask_gt mask_pred : Vol) (exclusion_zone : Option Vol) (crop : Bool) :
    Except Err (Vol × Vol × Option Vol) :=
  if crop then
    match exclusion_zone with
    | some ez =>
      match compute_bounding_box mask_gt mask_pred ez with
      | .error e => .error e
      | .ok (bmin, bmax) =>
        .ok (crop_mask mask_gt bmin bmax, crop_mask mask_pred bmin bmax,
             some (crop_mask ez bmin bmax))
    | none =>
      match compute_bounding_box mask_gt mask_pred mask_gt with
      | .error e => .error e
      | .ok (bmin, bmax) =>
        .ok (crop_mask mask_gt bmin bmax, crop_mask mask_pred bmin bmax, none)
  else .ok (mask_gt, mask_pred, exclusion_zone)

/-- Boolean test `distmap_exclusion < exclusion_distance` used by the
exclusion masker. -/
noncomputable def exclBelow (ez : Vol) (conn : ℕ) (sp : ℚ × ℚ × ℚ) (t : ℚ) (p : Idx) : Bool :=
  decide (exclusionDistMap ez conn sp p < (((t : ℚ) : ℝ) : EReal))

/-- In-place zeroing `borders[distmap_exclusion < exclusion_distance] = 0`
applied to a boundary-shell volume. -/
noncomputable def maskedBorders (shell : Vol) (ez : Vol) (conn : ℕ) (sp : ℚ × ℚ × ℚ)
    (t : ℚ) : Vol :=
  ⟨shell.shape, fun p => shell.get p && !exclBelow ez conn sp t p⟩

/-- The dictionary returned by `compute_distances`. -/
structure CDResult where
  distances_gt_to_pred : List EReal
  distances_pred_to_gt : List EReal
  borders_gt : Vol
  borders_pred : Vol
  distmap_gt : Idx → EReal
  distmap_pred : Idx → EReal
  distmask_pred : Idx → ℤ
  border_exclusion : Option Vol
  distmap_exclusion : Option (Idx → EReal)

/-- The result record of `compute_distances` when an exclusion zone is
supplied (both boundary shells zeroed where the exclusion zone's signed
distance map is below the threshold). -/
noncomputable def cdResultExcl (mg mp ez : Vol) (sp : ℚ × ℚ × ℚ) (conn : ℕ) (t : ℚ) :
    CDResult :=
  { distances_gt_to_pred :=
      ((voxelList mg.shape).filter (maskedBorders (shellVol mg conn) ez conn sp t).get).map
        (signedDistMap mp conn sp)
    distances_pred_to_gt :=
      ((voxelList mp.shape).filter (maskedBorders (shellVol mp conn) ez conn sp t).get).map
        (signedDistMap mg conn sp)
    borders_gt := maskedBorders (shellVol mg conn) ez conn sp t
    borders_pred := maskedBorders (shellVol mp conn) ez conn sp t
    distmap_gt := signedDistMap mg conn sp
    distmap_pred := signedDistMap mp conn sp
    distmask_pred := distmaskOf mp
    border_exclusion := some (shellVol ez conn)
    distmap_exclusion := some (exclusionDistMap ez conn sp) }

/-- The result record of `compute_distances` when no exclusion zone is
supplied. -/
noncomputable def cdResultNoExcl (mg mp : Vol) (sp : ℚ × ℚ × ℚ) (conn : ℕ) (t : ℚ) :
    CDResult :=
  { distances_gt_to_pred :=
      ((voxelList mg.shape).filter (shellVol mg conn).get).map (signedDistMap mp conn sp)
    distances_pred_to_gt :=
      ((voxelList mp.shape).filter (shellVol mp conn).get).map (signedDistMap mg conn sp)
    borders_gt := shellVol mg conn
    borders_pred := shellVol mp conn
    distmap_gt := signedDistMap mg conn sp
    distmap_pred := signedDistMap mp conn sp
    distmask_pred := distmaskOf mp
    border_exclusion := none
    distmap_exclusion := none }

/-- The body of `compute_distances` after the cropping stage.  When
`borders_pred` is empty the local `distmask_pred` is never assigned and the
return dict raises `UnboundLocalError` (the `np.Inf` sentinel branch for
`distmap_pred` runs, but the dict still references `distmask_pred`). -/
noncomputable def cdCore (mg mp : Vol) (exclusion_zone : Option Vol) (sp : ℚ × ℚ × ℚ)
    (conn : ℕ) (t : ℚ) : Except Err CDResult :=
  if shellVoxels mp conn = [] then .error .distmaskPredUnbound
  else
    match exclusion_zone with
    | some ez => .ok (cdResultExcl mg mp ez sp conn t)
    | none => .ok (cdResultNoExcl mg mp sp conn t)

/-- `compute_distances(mask_gt, mask_pred, exclusion_zone, spacing_mm,
connectivity, crop, exclusion_distance)`. -/
noncomputable def compute_distances (mask_gt mask_pred : Vol) (exclusion_zone : Option Vol)
    (spacing_mm : ℚ × ℚ × ℚ) (connectivity : ℕ) (crop : Bool) (exclusion_distance : ℚ) :
    Except Err CDResult :=
  match cropPhase mask_gt mask_pred exclusion_zone crop with
  | .error e => .error e
  | .ok (mg, mp, oez) => cdCore mg mp oez spacing_mm connectivity exclusion_distance

/-- Decidable success predicate for `compute_distances`: the cropping stage
found a non-empty union (or was skipped) and the predicted region's boundary
shell is non-empty (so `distmask_pred` is assigned). -/
def cdOk (mask_gt mask_pred : Vol) (exclusion_zone : Option Vol) (connectivity : ℕ)
    (crop : Bool) : Bool :=
  match cropPhase mask_gt mask_pred exclusion_zone crop with
  | .error _ => false
  | .ok (_, mp, _) => !(shellVoxels mp connectivity).isEmpty

/-- The row produced by `summarize_surface_dists`. -/
structure SummaryRow where
  Patient : ℕ
  Lesion : ℕ
  nr_voxels : ℕ
  min_distance : EReal
  q25_distance : EReal
  median_distance : EReal
  q75_distance : EReal
  max_distance : EReal
  x_less_than_0mm : ℝ
  x_equal_greater_than_0m : ℝ
  x_equal_greater_than_5m : ℝ

/-- `np.nanmin` on a distance list (the idealised lists carry no NaN). -/
noncomputable def nanmin : List EReal → EReal
  | [] => 0
  | x :: xs => xs.foldl min x

/-- `np.nanmax` on a distance list. -/
noncomputable def nanmax : List EReal → EReal
  | [] => 0
  | x :: xs => xs.foldl max x

/-- `np.nanquantile(distances, q)` with numpy's default linear interpolation:
sort, let `h = q*(n-1)`, and interpolate between the two bracketing order
statistics.  `np.nanmedian` equals the `q = 1/2` case. -/
noncomputable def nanquantile (l : List EReal) (q : ℚ) : EReal :=
  let s := l.mergeSort fun a b => decide (a ≤ b)
  let h : ℚ := q * ((l.length : ℚ) - 1)
  let i : ℕ := (⌊h⌋).toNat
  let γ : ℚ := h - (⌊h⌋ : ℚ)
  let lo := s.getD i 0
  let hi := s.getD (i + 1) lo
  lo + (((γ : ℚ) : ℝ) : EReal) * (hi - lo)

/-- The summary record assembled by `summarize_surface_dists` from a
non-empty distance list. -/
noncomputable def summaryRowOf (patient_id lesion_id : ℕ) (distances : List EReal) :
    SummaryRow :=
  { Patient := patient_id
    Lesion := lesion_id
    nr_voxels := distances.length
    min_distance := nanmin distances
    q25_distance := nanquantile distances (1 / 4)
    median_distance := nanquantile distances (1 / 2)
    q75_distance := nanquantile distances (3 / 4)
    max_distance := nanmax distances
    x_less_than_0mm :=
      ((distances.countP fun x => decide (x < (((0 : ℝ)) : EReal))) : ℝ) / distances.length
    x_equal_greater_than_0m :=
      ((distances.countP fun x => decide (x < (((5 : ℝ)) : EReal))) : ℝ) / distances.length
    x_equal_greater_than_5m :=
      ((distances.countP fun x => decide ((((5 : ℝ)) : EReal) ≤ x)) : ℝ) / distances.length }

/-- `summarize_surface_dists(patient_id, lesion_id, surface_distance)`:
reads `surface_distance['distances_gt_to_pred']` and reduces it to one
tabular record; `np.nanmin` of an empty list raises. -/
noncomputable def summarize_surface_dists (patient_id lesion_id : ℕ)
    (surface_distance : CDResult) : Except Err SummaryRow :=
  let distances := surface_distance.distances_gt_to_pred
  if distances.isEmpty then .error .emptyDistanceList
  else .ok (summaryRowOf patient_id lesion_id distances)

/-! ## Basic lemmas about the embedding -/

lemma inShape_iff {s : ℕ × ℕ × ℕ} {p : Idx} :
    inShape s p = true ↔
      0 ≤ p.1 ∧ p.1 < (s.1 : ℤ) ∧ 0 ≤ p.2.1 ∧ p.2.1 < (s.2.1 : ℤ) ∧
      0 ≤ p.2.2 ∧ p.2.2 < (s.2.2 : ℤ) := by
  simp only [inShape, Bool.and_eq_true, decide_eq_true_eq]
  tauto

lemma inShape_of_get {v : Vol} {p : Idx} (h : v.get p = true) : inShape v.shape p = true := by
  simp only [Vol.get, Bool.and_eq_true] at h
  exact h.1

lemma voxelList_mem_of {s : ℕ × ℕ × ℕ} {i j k : ℕ} (hi : i < s.1) (hj : j < s.2.1)
    (hk : k < s.2.2) : ((i : ℤ), ((j : ℤ), (k : ℤ))) ∈ voxelList s := by
  unfold voxelList
  refine List.mem_flatMap.2 ⟨i, List.mem_range.2 hi, ?_⟩
  refine List.mem_flatMap.2 ⟨j, List.mem_range.2 hj, ?_⟩
  exact List.mem_map.2 ⟨k, List.mem_range.2 hk, rfl⟩

lemma mem_voxelList {s : ℕ × ℕ × ℕ} {p : Idx} :
    p ∈ voxelList s ↔ inShape s p = true := by
  constructor
  · intro h
    unfold voxelList at h
    obtain ⟨i, hi, h⟩ := List.mem_flatMap.1 h
    obtain ⟨j, hj, h⟩ := List.mem_flatMap.1 h
    obtain ⟨k, hk, heq⟩ := List.mem_map.1 h
    subst heq
    rw [inShape_iff]
    refine ⟨Int.natCast_nonneg i, ?_, Int.natCast_nonneg j, ?_, Int.natCast_nonneg k, ?_⟩
    · show (i : ℤ) < (s.1 : ℤ)
      exact_mod_cast List.mem_range.1 hi
    · show (j : ℤ) < (s.2.1 : ℤ)
      exact_mod_cast List.mem_range.1 hj
    · show (k : ℤ) < (s.2.2 : ℤ)
      exact_mod_cast List.mem_range.1 hk
  · intro h
    rw [inShape_iff] at h
    obtain ⟨h1, h2, h3, h4, h5, h6⟩ := h
    have hmem := @voxelList_mem_of s p.1.toNat p.2.1.toNat p.2.2.toNat
      (by omega) (by omega) (by omega)
    rwa [Int.toNat_of_nonneg h1, Int.toNat_of_nonneg h3, Int.toNat_of_nonneg h5] at hmem

lemma zero_mem_structOffsets (conn : ℕ) : ((0 : ℤ), ((0 : ℤ), (0 : ℤ))) ∈ structOffsets conn := by
  simp only [structOffsets, List.mem_filter]
  exact ⟨by decide, by simp [Nat.zero_le]⟩

lemma get_of_erodeAt {v : Vol} {conn : ℕ} {p : Idx} (h : erodeAt v conn p = true) :
    v.get p = true := by
  simp only [erodeAt, List.all_eq_true] at h
  have := h _ (zero_mem_structOffsets conn)
  simpa using this

/-- Erosion only keeps region voxels, so the shell is contained in the region. -/
lemma get_of_shellAt {v : Vol} {conn : ℕ} {p : Idx} (h : shellAt v conn p = true) :
    v.get p = true := by
  by_contra hg
  have hg' : v.get p = false := by simpa using hg
  have he : erodeAt v conn p = false := by
    by_contra he'
    have he'' : erodeAt v conn p = true := by simpa using he'
    rw [get_of_erodeAt he''] at hg'
    cases hg'
  rw [shellAt, hg', he] at h
  simp at h

lemma mem_shellVoxels {v : Vol} {conn : ℕ} {p : Idx} :
    p ∈ shellVoxels v conn ↔ shellAt v conn p = true := by
  constructor
  · intro h
    exact (List.mem_filter.1 h).2
  · intro h
    exact List.mem_filter.2 ⟨mem_voxelList.2 (inShape_of_get (get_of_shellAt h)), h⟩

/-! ### Minimum lemmas -/

lemma minRat_eq_min (a b : ℚ) : minRat a b = min a b := by
  rw [minRat, min_def]

lemma foldl_minRat_eq (xs : List ℚ) (x : ℚ) : xs.foldl minRat x = xs.foldl min x := by
  induction xs generalizing x with
  | nil => rfl
  | cons y ys ih => simp only [List.foldl_cons, minRat_eq_min, ih]

lemma foldl_min_le_init (xs : List ℚ) (x : ℚ) : xs.foldl min x ≤ x := by
  induction xs generalizing x with
  | nil => exact le_refl x
  | cons y ys ih => exact le_trans (ih (min x y)) (min_le_left x y)

lemma foldl_min_le_mem (xs : List ℚ) (x : ℚ) {a : ℚ} (h : a ∈ xs) : xs.foldl min x ≤ a := by
  induction xs generalizing x with
  | nil => cases h
  | cons y ys ih =>
    rcases List.mem_cons.1 h with rfl | h'
    · exact le_trans (foldl_min_le_init ys (min x a)) (min_le_right x a)
    · exact ih (min x y) h'

lemma le_foldl_min {xs : List ℚ} {x c : ℚ} (hx : c ≤ x) (h : ∀ a ∈ xs, c ≤ a) :
    c ≤ xs.foldl min x := by
  induction xs generalizing x with
  | nil => exact hx
  | cons y ys ih =>
    exact ih (le_min hx (h y (List.mem_cons_self _ _))) fun a ha => h a (List.mem_cons_of_mem _ ha)

lemma minQ_le {l : List ℚ} {a : ℚ} (h : a ∈ l) : minQ l ≤ a := by
  match l with
  | [] => cases h
  | x :: xs =>
    show xs.foldl minRat x ≤ a
    rw [foldl_minRat_eq]
    rcases List.mem_cons.1 h with rfl | h'
    · exact foldl_min_le_init xs a
    · exact foldl_min_le_mem xs x h'

lemma le_minQ {l : List ℚ} {c : ℚ} (hne : l ≠ []) (h : ∀ a ∈ l, c ≤ a) : c ≤ minQ l := by
  match l with
  | [] => exact absurd rfl hne
  | x :: xs =>
    show c ≤ xs.foldl minRat x
    rw [foldl_minRat_eq]
    exact le_foldl_min (h x (List.mem_cons_self _ _)) fun a ha => h a (List.mem_cons_of_mem _ ha)

lemma foldl_min_mem (xs : List ℚ) (x : ℚ) : xs.foldl min x = x ∨ xs.foldl min x ∈ xs := by
  induction xs generalizing x with
  | nil => exact Or.inl rfl
  | cons y ys ih =>
    rcases ih (min x y) with h | h
    · rcases min_choice x y with hc | hc
      · exact Or.inl (by rw [List.foldl_cons, h, hc])
      · exact Or.inr (by rw [List.foldl_cons, h, hc]; exact List.mem_cons_self _ _)
    · exact Or.inr (List.mem_cons_of_mem _ h)

lemma minQ_mem {l : List ℚ} (hne : l ≠ []) : minQ l ∈ l := by
  match l with
  | [] => exact absurd rfl hne
  | x :: xs =>
    show xs.foldl minRat x ∈ x :: xs
    rw [foldl_minRat_eq]
    rcases foldl_min_mem xs x with h | h
    · rw [h]; exact List.mem_cons_self _ _
    · rw [List.mem_cons]; exact Or.inr h

lemma sqDist_nonneg (sp : ℚ × ℚ × ℚ) (p q : Idx) : 0 ≤ sqDist sp p q := by
  unfold sqDist
  positivity

lemma sqDist_pos_of_ne {sp : ℚ × ℚ × ℚ} (hsp : 0 < sp.1 ∧ 0 < sp.2.1 ∧ 0 < sp.2.2)
    {p q : Idx} (hne : p ≠ q) : 0 < sqDist sp p q := by
  have hd : p.1 ≠ q.1 ∨ p.2.1 ≠ q.2.1 ∨ p.2.2 ≠ q.2.2 := by
    by_contra hc
    push_neg at hc
    exact hne (Prod.ext hc.1 (Prod.ext hc.2.1 hc.2.2))
  rw [sqDist]
  rcases hd with h | h | h
  · have h1 : (0 : ℚ) < (((p.1 - q.1 : ℤ) : ℚ) * sp.1) ^ 2 := by
      have hz : ((p.1 - q.1 : ℤ) : ℚ) ≠ 0 := by
        simp only [ne_eq, Int.cast_eq_zero, sub_eq_zero]
        exact h
      exact pow_two_pos_of_ne_zero (mul_ne_zero hz (ne_of_gt hsp.1))
    nlinarith [sq_nonneg (((p.2.1 - q.2.1 : ℤ) : ℚ) * sp.2.1),
      sq_nonneg (((p.2.2 - q.2.2 : ℤ) : ℚ) * sp.2.2)]
  · have h1 : (0 : ℚ) < (((p.2.1 - q.2.1 : ℤ) : ℚ) * sp.2.1) ^ 2 := by
      have hz : ((p.2.1 - q.2.1 : ℤ) : ℚ) ≠ 0 := by
        simp only [ne_eq, Int.cast_eq_zero, sub_eq_zero]
        exact h
      exact pow_two_pos_of_ne_zero (mul_ne_zero hz (ne_of_gt hsp.2.1))
    nlinarith [sq_nonneg (((p.1 - q.1 : ℤ) : ℚ) * sp.1),
      sq_nonneg (((p.2.2 - q.2.2 : ℤ) : ℚ) * sp.2.2)]
  · have h1 : (0 : ℚ) < (((p.2.2 - q.2.2 : ℤ) : ℚ) * sp.2.2) ^ 2 := by
      have hz : ((p.2.2 - q.2.2 : ℤ) : ℚ) ≠ 0 := by
        simp only [ne_eq, Int.cast_eq_zero, sub_eq_zero]
        exact h
      exact pow_two_pos_of_ne_zero (mul_ne_zero hz (ne_of_gt hsp.2.2))
    nlinarith [sq_nonneg (((p.1 - q.1 : ℤ) : ℚ) * sp.1),
      sq_nonneg (((p.2.1 - q.2.1 : ℤ) : ℚ) * sp.2.1)]

lemma sqDist_self (sp : ℚ × ℚ × ℚ) (p : Idx) : sqDist sp p p = 0 := by
  simp [sqDist]

lemma edtSq_nonneg (shell : List Idx) (sp : ℚ × ℚ × ℚ) (p : Idx) :
    0 ≤ edtSq shell sp p := by
  unfold edtSq
  match hs : shell.map (sqDist sp p) with
  | [] => simp [minQ]
  | x :: xs =>
    refine le_minQ (by simp) fun a ha => ?_
    rw [← hs] at ha
    obtain ⟨q, _, rfl⟩ := List.mem_map.1 ha
    exact sqDist_nonneg sp p q

lemma edtSq_le_sqDist {shell : List Idx} {q : Idx} (h : q ∈ shell) (sp : ℚ × ℚ × ℚ)
    (p : Idx) : edtSq shell sp p ≤ sqDist sp p q :=
  minQ_le (List.mem_map.2 ⟨q, h, rfl⟩)

lemma edtSq_eq_zero_of_mem {shell : List Idx} {p : Idx} (h : p ∈ shell) (sp : ℚ × ℚ × ℚ) :
    edtSq shell sp p = 0 :=
  le_antisymm (by simpa [sqDist_self] using edtSq_le_sqDist h sp p) (edtSq_nonneg shell sp p)

lemma edtSq_pos_of_not_mem {shell : List Idx} {sp : ℚ × ℚ × ℚ} {p : Idx}
    (hsp : 0 < sp.1 ∧ 0 < sp.2.1 ∧ 0 < sp.2.2) (hne : shell ≠ []) (hp : p ∉ shell) :
    0 < edtSq shell sp p := by
  have hmem : minQ (shell.map (sqDist sp p)) ∈ shell.map (sqDist sp p) :=
    minQ_mem (by simpa using hne)
  obtain ⟨q, hq, heq⟩ := List.mem_map.1 hmem
  rw [edtSq, ← heq]
  exact sqDist_pos_of_ne hsp fun h => hp (h ▸ hq)

/-! ### Sign lemmas for the signed distance map -/

lemma edt_nonneg (shell : List Idx) (sp : ℚ × ℚ × ℚ) (p : Idx) : 0 ≤ edt shell sp p :=
  Real.sqrt_nonneg _

lemma signedDistMap_nonneg {v : Vol} {conn : ℕ} (sp : ℚ × ℚ × ℚ) {p : Idx}
    (hne : shellVoxels v conn ≠ []) (hp : v.get p = true) :
    0 ≤ signedDistMap v conn sp p := by
  rw [signedDistMap, if_neg hne]
  refine EReal.coe_nonneg.2 ?_
  rw [distmaskOf, if_pos hp]
  simpa using edt_nonneg (shellVoxels v conn) sp p

lemma signedDistMap_nonpos {v : Vol} {conn : ℕ} (sp : ℚ × ℚ × ℚ) {p : Idx}
    (hne : shellVoxels v conn ≠ []) (hp : v.get p = false) :
    signedDistMap v conn sp p ≤ 0 := by
  rw [signedDistMap, if_neg hne]
  refine EReal.coe_nonpos.2 ?_
  rw [distmaskOf, if_neg (by simp [hp])]
  have := edt_nonneg (shellVoxels v conn) sp p
  push_cast
  nlinarith

lemma signedDistMap_zero_of_shell {v : Vol} {conn : ℕ} (sp : ℚ × ℚ × ℚ) {p : Idx}
    (hne : shellVoxels v conn ≠ []) (hs : shellAt v conn p = true) :
    signedDistMap v conn sp p = 0 := by
  rw [signedDistMap, if_neg hne]
  have hmem : p ∈ shellVoxels v conn := mem_shellVoxels.2 hs
  have hz : edt (shellVoxels v conn) sp p = 0 := by
    rw [edt, edtSq_eq_zero_of_mem hmem]
    simp
  rw [hz, mul_zero]
  simp

/-! ## Concrete example volumes used by witnesses and counterexamples -/

/-- A 3×3×3 volume that is foreground everywhere. -/
def exFull333 : Vol := ⟨(3, (3, 3)), fun _ => true⟩

/-- A 9×1×1 volume whose only foreground voxel is at index 8. -/
def exLineEnd9 : Vol := ⟨(9, (1, 1)), fun p => decide (p.1 = 8)⟩

/-- A 9×1×1 volume whose only foreground voxel is at index 0. -/
def exLineStart9 : Vol := ⟨(9, (1, 1)), fun p => decide (p.1 = 0)⟩

/-- A 3×1×1 volume whose only foreground voxel is at index 1. -/
def exMid311 : Vol := ⟨(3, (1, 1)), fun p => decide (p.1 = 1)⟩

/-- An all-background 3×1×1 volume. -/
def exEmpty311 : Vol := ⟨(3, (1, 1)), fun _ => false⟩

/-- A 3×1×1 volume whose only foreground voxel is at index 0. -/
def exStart311 : Vol := ⟨(3, (1, 1)), fun p => decide (p.1 = 0)⟩

/-- An all-background 2×2×2 volume. -/
def exEmpty222 : Vol := ⟨(2, (2, 2)), fun _ => false⟩

/-- An all-foreground 1×1×1 volume. -/
def exFull111 : Vol := ⟨(1, (1, 1)), fun _ => true⟩

/-- A 3×3×3 volume marking the single voxel (1,1,1). -/
def exCenter333 : Vol := ⟨(3, (3, 3)), fun p => decide (p = (1, (1, 1)))⟩

/-! ## C9: the boundary shell is contained in the region -/

/-- C9: for every binary volume and every connectivity, every voxel that is
true in the boundary shell `V ^ binary_erosion(V)` is true in `V`. -/
theorem c9_shell_subset_region (v : Vol) (conn : ℕ) (p : Idx)
    (h : (shellVol v conn).get p = true) : v.get p = true := by
  have hs : shellAt v conn p = true := by
    simp only [shellVol, Vol.get, Bool.and_eq_true] at h
    exact h.2
  exact get_of_shellAt hs

/-- Witness for C9 at a concrete volume and voxel. -/
theorem c9_shell_subset_region_witness :
    (shellVol exFull111 1).get (0, (0, 0)) = true ∧ exFull111.get (0, (0, 0)) = true := by
  refine ⟨by decide, c9_shell_subset_region exFull111 1 (0, (0, 0)) (by decide)⟩

/-! ## C8: compute_bounding_box fails exactly on an empty union -/

lemma nonzero0_eq_nil {a b c : Vol}
    (h : ∀ p ∈ voxelList a.shape, (unionVol a b c).get p = false) :
    nonzero0 (unionVol a b c) = [] := by
  rw [nonzero0, List.filter_eq_nil_iff]
  intro i hi hpred
  obtain ⟨j, hj, hpred2⟩ := List.any_eq_true.1 hpred
  obtain ⟨k, hk, hget⟩ := List.any_eq_true.1 hpred2
  have hmem : ((i : ℤ), ((j : ℤ), (k : ℤ))) ∈ voxelList a.shape :=
    voxelList_mem_of (List.mem_range.1 hi) (List.mem_range.1 hj) (List.mem_range.1 hk)
  rw [h _ hmem] at hget
  cases hget

/-- C8: whenever the element-wise union of the three input volumes has no
true voxel, `compute_bounding_box` raises (the `ValueError` of `np.min` on
an empty index list, the EmptyUnionError of the spec) and returns no box. -/
theorem c8_empty_union_fails (mask_gt mask_pred exclusion_zone : Vol)
    (h : ∀ p ∈ voxelList mask_gt.shape,
      (unionVol mask_gt mask_pred exclusion_zone).get p = false) :
    compute_bounding_box mask_gt mask_pred exclusion_zone = .error .emptyUnion := by
  have h0 := nonzero0_eq_nil h
  simp only [compute_bounding_box]
  rw [h0]

/-- Witness for C8: an entirely empty target volume passed alone (the union
of copies of it is empty) raises the error. -/
theorem c8_empty_union_fails_witness :
    (∀ p ∈ voxelList exEmpty222.shape,
      (unionVol exEmpty222 exEmpty222 exEmpty222).get p = false) ∧
    compute_bounding_box exEmpty222 exEmpty222 exEmpty222 = .error .emptyUnion :=
  ⟨by decide, c8_empty_union_fails exEmpty222 exEmpty222 exEmpty222 (by decide)⟩

/-! ## C5: crop_mask shape, content and padding -/

/-- C5: for a bounding box inside the source bounds, `crop_mask` returns a
volume of shape `(max - min) + 2` per axis, whose cube `[0 .. max-min]`
holds the source sub-volume `[min .. max]`, and whose last slice along every
axis is background. -/
theorem c5_crop_mask_spec (mask : Vol) (bbox_min bbox_max : Idx)
    (hle : bbox_min.1 ≤ bbox_max.1 ∧ bbox_min.2.1 ≤ bbox_max.2.1 ∧
      bbox_min.2.2 ≤ bbox_max.2.2)
    (hlo : 0 ≤ bbox_min.1 ∧ 0 ≤ bbox_min.2.1 ∧ 0 ≤ bbox_min.2.2)
    (hhi : bbox_max.1 < (mask.shape.1 : ℤ) ∧ bbox_max.2.1 < (mask.shape.2.1 : ℤ) ∧
      bbox_max.2.2 < (mask.shape.2.2 : ℤ)) :
    (((crop_mask mask bbox_min bbox_max).shape.1 : ℤ) = bbox_max.1 - bbox_min.1 + 2 ∧
     ((crop_mask mask bbox_min bbox_max).shape.2.1 : ℤ) = bbox_max.2.1 - bbox_min.2.1 + 2 ∧
     ((crop_mask mask bbox_min bbox_max).shape.2.2 : ℤ) = bbox_max.2.2 - bbox_min.2.2 + 2) ∧
    (∀ p : Idx, 0 ≤ p.1 → p.1 ≤ bbox_max.1 - bbox_min.1 →
      0 ≤ p.2.1 → p.2.1 ≤ bbox_max.2.1 - bbox_min.2.1 →
      0 ≤ p.2.2 → p.2.2 ≤ bbox_max.2.2 - bbox_min.2.2 →
      (crop_mask mask bbox_min bbox_max).get p =
        mask.get (bbox_min.1 + p.1, (bbox_min.2.1 + p.2.1, bbox_min.2.2 + p.2.2))) ∧
    (∀ p : Idx, inShape (crop_mask mask bbox_min bbox_max).shape p = true →
      (p.1 = bbox_max.1 - bbox_min.1 + 1 ∨ p.2.1 = bbox_max.2.1 - bbox_min.2.1 + 1 ∨
       p.2.2 = bbox_max.2.2 - bbox_min.2.2 + 1) →
      (crop_mask mask bbox_min bbox_max).get p = false) := by
  obtain ⟨ha, hb, hc⟩ := hle
  refine ⟨⟨by simp [crop_mask]; omega, by simp [crop_mask]; omega, by simp [crop_mask]; omega⟩,
    ?_, ?_⟩
  · intro p hp1 hp2 hp3 hp4 hp5 hp6
    have hin : inShape (crop_mask mask bbox_min bbox_max).shape p = true := by
      rw [inShape_iff]
      refine ⟨hp1, ?_, hp3, ?_, hp5, ?_⟩ <;> simp only [crop_mask] <;> omega
    rw [Vol.get, hin, Bool.true_and]
    show (decide (0 ≤ p.1 ∧ p.1 ≤ bbox_max.1 - bbox_min.1) && _ && _ && _) = _
    rw [decide_eq_true (show 0 ≤ p.1 ∧ p.1 ≤ bbox_max.1 - bbox_min.1 from ⟨hp1, hp2⟩),
      decide_eq_true (show 0 ≤ p.2.1 ∧ p.2.1 ≤ bbox_max.2.1 - bbox_min.2.1 from ⟨hp3, hp4⟩),
      decide_eq_true (show 0 ≤ p.2.2 ∧ p.2.2 ≤ bbox_max.2.2 - bbox_min.2.2 from ⟨hp5, hp6⟩)]
    simp
  · intro p hin hdisj
    rw [Vol.get]
    rcases hdisj with hd | hd | hd
    · have : decide (0 ≤ p.1 ∧ p.1 ≤ bbox_max.1 - bbox_min.1) = false := by
        rw [decide_eq_false_iff_not]
        omega
      show (_ && ((decide _ && _ && _) && _)) = false
      rw [this]
      simp
    · have : decide (0 ≤ p.2.1 ∧ p.2.1 ≤ bbox_max.2.1 - bbox_min.2.1) = false := by
        rw [decide_eq_false_iff_not]
        omega
      show (_ && ((_ && decide _ && _) && _)) = false
      rw [this]
      simp
    · have : decide (0 ≤ p.2.2 ∧ p.2.2 ≤ bbox_max.2.2 - bbox_min.2.2) = false := by
        rw [decide_eq_false_iff_not]
        omega
      show (_ && ((_ && _ && decide _) && _)) = false
      rw [this]
      simp

/-- Witness for C5 at a concrete mask and bounding box. -/
theorem c5_crop_mask_spec_witness :
    (((crop_mask exFull333 (0, (0, 0)) (1, (1, 1))).shape.1 : ℤ) = 1 - 0 + 2 ∧
     ((crop_mask exFull333 (0, (0, 0)) (1, (1, 1))).shape.2.1 : ℤ) = 1 - 0 + 2 ∧
     ((crop_mask exFull333 (0, (0, 0)) (1, (1, 1))).shape.2.2 : ℤ) = 1 - 0 + 2) ∧
    (crop_mask exFull333 (0, (0, 0)) (1, (1, 1))).get (1, (1, 0)) =
      exFull333.get (0 + 1, (0 + 1, 0 + 0)) ∧
    (crop_mask exFull333 (0, (0, 0)) (1, (1, 1))).get (2, (1, 0)) = false := by
  have h := c5_crop_mask_spec exFull333 (0, (0, 0)) (1, (1, 1))
    (by exact ⟨by decide, by decide, by decide⟩)
    (by exact ⟨by decide, by decide, by decide⟩)
    (by exact ⟨by decide, by decide, by decide⟩)
  exact ⟨h.1,
    h.2.1 (1, (1, 0)) (by decide) (by decide) (by decide) (by decide) (by decide) (by decide),
    h.2.2 (2, (1, 0)) (by decide) (Or.inl (by decide))⟩

/-! ## C6: the coverage fractions are mutually exhaustive -/

/-- C6: for every non-empty distance list, the summarizer returns a row whose
`x_equal_greater_than_0m` (fraction `< 5`) and `x_equal_greater_than_5m`
(fraction `≥ 5`) sum to `1`, with `x_less_than_0mm ≤ x_equal_greater_than_0m`. -/
theorem c6_coverage_fractions (patient_id lesion_id : ℕ) (sd : CDResult)
    (h : sd.distances_gt_to_pred ≠ []) :
    summarize_surface_dists patient_id lesion_id sd =
      .ok (summaryRowOf patient_id lesion_id sd.distances_gt_to_pred) ∧
    (summaryRowOf patient_id lesion_id sd.distances_gt_to_pred).x_equal_greater_than_0m +
      (summaryRowOf patient_id lesion_id sd.distances_gt_to_pred).x_equal_greater_than_5m = 1 ∧
    (summaryRowOf patient_id lesion_id sd.distances_gt_to_pred).x_less_than_0mm ≤
      (summaryRowOf patient_id lesion_id sd.distances_gt_to_pred).x_equal_greater_than_0m := by
  set l := sd.distances_gt_to_pred with hl
  have hn : l.length ≠ 0 := fun h0 => h (List.length_eq_zero.1 h0)
  have hnr : ((l.length : ℕ) : ℝ) ≠ 0 := Nat.cast_ne_zero.2 hn
  refine ⟨?_, ?_, ?_⟩
  · rw [summarize_surface_dists]
    rw [if_neg (by simpa [List.isEmpty_iff] using h)]
  · simp only [summaryRowOf]
    have hcount : l.countP (fun x => decide (x < (((5 : ℝ)) : EReal))) +
        l.countP (fun x => decide ((((5 : ℝ)) : EReal) ≤ x)) = l.length := by
      have hsplit := List.length_eq_countP_add_countP
        (fun x : EReal => decide (x < (((5 : ℝ)) : EReal))) l
      have hcongr : l.countP (fun a => decide ¬(decide (a < (((5 : ℝ)) : EReal)) = true)) =
          l.countP (fun x => decide ((((5 : ℝ)) : EReal) ≤ x)) := by
        apply List.countP_congr
        intro a _
        simp [not_lt]
      rw [hcongr] at hsplit
      omega
    rw [div_add_div_same, ← Nat.cast_add, hcount, div_self hnr]
  · simp only [summaryRowOf]
    have hmono : l.countP (fun x => decide (x < (((0 : ℝ)) : EReal))) ≤
        l.countP (fun x => decide (x < (((5 : ℝ)) : EReal))) := by
      apply List.countP_mono_left
      intro x _ hx
      rw [decide_eq_true_eq] at hx ⊢
      exact lt_trans hx (by exact_mod_cast (by norm_num : (0 : ℝ) < 5))
    have hnpos : (0 : ℝ) < ((l.length : ℕ) : ℝ) :=
      Nat.cast_pos.2 (Nat.pos_of_ne_zero hn)
    have hle : ((l.countP fun x => decide (x < (((0 : ℝ)) : EReal))) : ℝ) ≤
        ((l.countP fun x => decide (x < (((5 : ℝ)) : EReal))) : ℝ) := Nat.cast_le.2 hmono
    exact div_le_div_of_nonneg_right hle hnpos.le

/-! ## C10: the summary depends only on distances_gt_to_pred -/

/-- C10: `summarize_surface_dists` reads only the `distances_gt_to_pred`
entry of its input record; two inputs agreeing there (with the same patient
and lesion ids) produce identical records. -/
theorem c10_summary_projection (patient_id lesion_id : ℕ) (sd sd' : CDResult)
    (h : sd.distances_gt_to_pred = sd'.distances_gt_to_pred) :
    summarize_surface_dists patient_id lesion_id sd =
      summarize_surface_dists patient_id lesion_id sd' := by
  rw [summarize_surface_dists, summarize_surface_dists, h]

/-! ## Concrete surface-distance records for the summarizer claims -/

/-- A concrete surface-distance record with a one-element distance list. -/
noncomputable def exSDRecordA : CDResult :=
  { distances_gt_to_pred := [(((1 : ℝ)) : EReal)]
    distances_pred_to_gt := []
    borders_gt := exEmpty311
    borders_pred := exEmpty311
    distmap_gt := fun _ => 0
    distmap_pred := fun _ => 0
    distmask_pred := fun _ => 1
    border_exclusion := none
    distmap_exclusion := none }

/-- A record that agrees with `exSDRecordA` on `distances_gt_to_pred` but
differs everywhere else that could plausibly matter. -/
noncomputable def exSDRecordB : CDResult :=
  { exSDRecordA with
    distances_pred_to_gt := [(((7 : ℝ)) : EReal), ⊤]
    distmap_pred := fun _ => ⊤
    distmask_pred := fun _ => -1 }

/-- Witness for C6 at a concrete record. -/
theorem c6_coverage_fractions_witness :
    exSDRecordA.distances_gt_to_pred ≠ [] ∧
    (summaryRowOf 0 1 exSDRecordA.distances_gt_to_pred).x_equal_greater_than_0m +
      (summaryRowOf 0 1 exSDRecordA.distances_gt_to_pred).x_equal_greater_than_5m = 1 := by
  have h : exSDRecordA.distances_gt_to_pred ≠ [] := by
    simp [exSDRecordA]
  exact ⟨h, (c6_coverage_fractions 0 1 exSDRecordA h).2.1⟩

/-- Witness for C10 at two concrete records. -/
theorem c10_summary_projection_witness :
    exSDRecordA.distances_gt_to_pred = exSDRecordB.distances_gt_to_pred ∧
    summarize_surface_dists 0 1 exSDRecordA = summarize_surface_dists 0 1 exSDRecordB :=
  ⟨rfl, c10_summary_projection 0 1 exSDRecordA exSDRecordB rfl⟩

/-! ## Evaluation helpers for compute_distances -/

lemma compute_distances_eq_core (mask_gt mask_pred : Vol) (exclusion_zone : Option Vol)
    (crop : Bool) (mg mp : Vol) (oez : Option Vol) (sp : ℚ × ℚ × ℚ) (conn : ℕ) (t : ℚ)
    (hcrop : cropPhase mask_gt mask_pred exclusion_zone crop = .ok (mg, mp, oez)) :
    compute_distances mask_gt mask_pred exclusion_zone sp conn crop t =
      cdCore mg mp oez sp conn t := by
  rw [compute_distances, hcrop]

lemma compute_distances_nocrop (mask_gt mask_pred : Vol) (exclusion_zone : Option Vol)
    (sp : ℚ × ℚ × ℚ) (conn : ℕ) (t : ℚ) :
    compute_distances mask_gt mask_pred exclusion_zone sp conn false t =
      cdCore mask_gt mask_pred exclusion_zone sp conn t := rfl

lemma cdCore_ok_noexcl {mg mp : Vol} {sp : ℚ × ℚ × ℚ} {conn : ℕ} {t : ℚ}
    (h : shellVoxels mp conn ≠ []) :
    cdCore mg mp none sp conn t = .ok (cdResultNoExcl mg mp sp conn t) := by
  rw [cdCore, if_neg h]

lemma cdCore_ok_excl {mg mp ez : Vol} {sp : ℚ × ℚ × ℚ} {conn : ℕ} {t : ℚ}
    (h : shellVoxels mp conn ≠ []) :
    cdCore mg mp (some ez) sp conn t = .ok (cdResultExcl mg mp ez sp conn t) := by
  rw [cdCore, if_neg h]

lemma cdCore_fields {mg mp : Vol} {oez : Option Vol} {sp : ℚ × ℚ × ℚ} {conn : ℕ} {t : ℚ}
    {r : CDResult} (h : cdCore mg mp oez sp conn t = .ok r) :
    r.distmap_gt = signedDistMap mg conn sp ∧ r.distmap_pred = signedDistMap mp conn sp ∧
    r.distmask_pred = distmaskOf mp ∧ shellVoxels mp conn ≠ [] := by
  by_cases hc : shellVoxels mp conn = []
  · rw [cdCore.eq_def, if_pos hc] at h
    cases h
  · rw [cdCore.eq_def, if_neg hc] at h
    cases oez with
    | some ez =>
      simp only [Except.ok.injEq] at h
      subst h
      exact ⟨rfl, rfl, rfl, hc⟩
    | none =>
      simp only [Except.ok.injEq] at h
      subst h
      exact ⟨rfl, rfl, rfl, hc⟩

/-! ## C3: the empty-shell sentinel (code bug on the predicted side) -/

/-- C3 (code observation): on an input whose predicted region is empty (so
its boundary shell is empty), `compute_distances` does not return the
`+inf` sentinel map — it raises `UnboundLocalError`, because `distmask_pred`
is only assigned in the non-empty branch yet is referenced in the returned
dict.  On the target side the sentinel does work: with an empty target
region the function returns normally and `distmap_gt` is `+inf`
everywhere. -/
theorem c3_empty_shell_sentinel :
    (shellVoxels exEmpty311 1 = [] ∧
     compute_distances exMid311 exEmpty311 none (1, (1, 1)) 1 false 5 =
       .error .distmaskPredUnbound) ∧
    (compute_distances exEmpty311 exMid311 none (1, (1, 1)) 1 false 5 =
       .ok (cdResultNoExcl exEmpty311 exMid311 (1, (1, 1)) 1 5) ∧
     ∀ p : Idx, (cdResultNoExcl exEmpty311 exMid311 (1, (1, 1)) 1 5).distmap_gt p = ⊤) := by
  refine ⟨⟨by decide, ?_⟩, ?_, ?_⟩
  · rw [compute_distances_nocrop, cdCore.eq_def, if_pos (by decide)]
  · rw [compute_distances_nocrop, cdCore_ok_noexcl (by decide)]
  · intro p
    show signedDistMap exEmpty311 1 (1, (1, 1)) p = ⊤
    rw [signedDistMap, if_pos (by decide)]

/-! ## C1: the sign invariant of the distance mapper -/

/-- C1 counterexample: the claimed signs are reversed in the code.  For the
full 3×3×3 region, the voxel `(1,1,1)` is inside the region, yet
`distmap_gt` there is `+1` (not `≤ 0`), and the sign mask `distmask_pred`
maps this foreground voxel to `+1` (not `-1`). -/
theorem c1_sign_invariant_counterexample :
    exFull333.get (1, (1, 1)) = true ∧
    compute_distances exFull333 exFull333 none (1, (1, 1)) 1 false 5 =
      .ok (cdResultNoExcl exFull333 exFull333 (1, (1, 1)) 1 5) ∧
    0 < (cdResultNoExcl exFull333 exFull333 (1, (1, 1)) 1 5).distmap_gt (1, (1, 1)) ∧
    (cdResultNoExcl exFull333 exFull333 (1, (1, 1)) 1 5).distmask_pred (1, (1, 1)) = 1 := by
  have h2 : compute_distances exFull333 exFull333 none (1, (1, 1)) 1 false 5 =
      .ok (cdResultNoExcl exFull333 exFull333 (1, (1, 1)) 1 5) := by
    rw [compute_distances_nocrop, cdCore_ok_noexcl (by decide)]
  refine ⟨by decide, h2, ?_, by decide⟩
  show (0 : EReal) < signedDistMap exFull333 1 (1, (1, 1)) (1, (1, 1))
  rw [signedDistMap, if_neg (by decide)]
  have hmask : distmaskOf exFull333 (1, (1, 1)) = 1 := by decide
  rw [hmask]
  have hpos : (0 : ℝ) < edt (shellVoxels exFull333 1) (1, (1, 1)) (1, (1, 1)) := by
    rw [edt]
    refine Real.sqrt_pos.2 ?_
    have := @edtSq_pos_of_not_mem (shellVoxels exFull333 1) (1, (1, 1))
      (1, (1, 1)) (by norm_num) (by decide) (by decide)
    exact_mod_cast this
  have : (0 : ℝ) < ((1 : ℤ) : ℝ) * edt (shellVoxels exFull333 1) (1, (1, 1)) (1, (1, 1)) := by
    simpa using hpos
  exact_mod_cast this

/-- C1 (amended): the signs actually implemented.  Whenever
`compute_distances` succeeds, the sign mask `distmask_pred` maps foreground
voxels of the (possibly cropped) predicted region to `+1` and background
voxels to `-1`; and for a region whose boundary shell is non-empty, the
returned signed distance map is `≥ 0` at every voxel inside that region,
`≤ 0` at every voxel outside it, and `0` at every boundary-shell voxel. -/
theorem c1_sign_invariant_amended (mask_gt mask_pred : Vol) (exclusion_zone : Option Vol)
    (sp : ℚ × ℚ × ℚ) (conn : ℕ) (crop : Bool) (t : ℚ) (mg mp : Vol) (oez : Option Vol)
    (r : CDResult)
    (hcrop : cropPhase mask_gt mask_pred exclusion_zone crop = .ok (mg, mp, oez))
    (hrun : compute_distances mask_gt mask_pred exclusion_zone sp conn crop t = .ok r) :
    (∀ p : Idx, r.distmask_pred p = if mp.get p then 1 else -1) ∧
    (shellVoxels mg conn ≠ [] → ∀ p : Idx,
      (mg.get p = true → 0 ≤ r.distmap_gt p) ∧
      (mg.get p = false → r.distmap_gt p ≤ 0) ∧
      (shellAt mg conn p = true → r.distmap_gt p = 0)) ∧
    (shellVoxels mp conn ≠ [] → ∀ p : Idx,
      (mp.get p = true → 0 ≤ r.distmap_pred p) ∧
      (mp.get p = false → r.distmap_pred p ≤ 0) ∧
      (shellAt mp conn p = true → r.distmap_pred p = 0)) := by
  have hcore : cdCore mg mp oez sp conn t = .ok r := by
    rw [← compute_distances_eq_core mask_gt mask_pred exclusion_zone crop mg mp oez sp conn t
      hcrop]
    exact hrun
  obtain ⟨hg, hp, hm, _⟩ := cdCore_fields hcore
  refine ⟨?_, ?_, ?_⟩
  · intro p
    rw [hm, distmaskOf]
  · intro hne p
    rw [hg]
    exact ⟨fun h => signedDistMap_nonneg sp hne h, fun h => signedDistMap_nonpos sp hne h,
      fun h => signedDistMap_zero_of_shell sp hne h⟩
  · intro hne p
    rw [hp]
    exact ⟨fun h => signedDistMap_nonneg sp hne h, fun h => signedDistMap_nonpos sp hne h,
      fun h => signedDistMap_zero_of_shell sp hne h⟩

/-- Witness for the amended C1 at a concrete run. -/
theorem c1_sign_invariant_amended_witness :
    cropPhase exFull333 exFull333 none false = .ok (exFull333, exFull333, none) ∧
    compute_distances exFull333 exFull333 none (1, (1, 1)) 1 false 5 =
      .ok (cdResultNoExcl exFull333 exFull333 (1, (1, 1)) 1 5) ∧
    exFull333.get (1, (1, 1)) = true ∧
    (0 : EReal) ≤ (cdResultNoExcl exFull333 exFull333 (1, (1, 1)) 1 5).distmap_gt (1, (1, 1)) := by
  have h1 : cropPhase exFull333 exFull333 none false = .ok (exFull333, exFull333, none) := rfl
  have h2 : compute_distances exFull333 exFull333 none (1, (1, 1)) 1 false 5 =
      .ok (cdResultNoExcl exFull333 exFull333 (1, (1, 1)) 1 5) := by
    rw [compute_distances_nocrop, cdCore_ok_noexcl (by decide)]
  have h3 := (c1_sign_invariant_amended exFull333 exFull333 none (1, (1, 1)) 1 false 5
    exFull333 exFull333 none _ h1 h2).2.1 (by decide) (1, (1, 1))
  exact ⟨h1, h2, by decide, h3.1 (by decide)⟩

/-! ## C2: the exclusion masker -/

lemma maskedBorders_get (shell ez : Vol) (conn : ℕ) (sp : ℚ × ℚ × ℚ) (t : ℚ) (p : Idx) :
    (maskedBorders shell ez conn sp t).get p =
      (shell.get p && !exclBelow ez conn sp t p) := by
  show (inShape shell.shape p && (shell.get p && _)) = (shell.get p && _)
  cases h : inShape shell.shape p
  · simp [Vol.get, h]
  · simp [Vol.get, h]

lemma cdCore_excl_eq {mg mp ez : Vol} {sp : ℚ × ℚ × ℚ} {conn : ℕ} {t : ℚ} {r : CDResult}
    (h : cdCore mg mp (some ez) sp conn t = .ok r) :
    r = cdResultExcl mg mp ez sp conn t := by
  by_cases hc : shellVoxels mp conn = []
  · rw [cdCore.eq_def, if_pos hc] at h
    cases h
  · rw [cdCore.eq_def, if_neg hc] at h
    simp only [Except.ok.injEq] at h
    exact h.symm

/-- The exclusion test `distmap_exclusion < exclusion_distance`, characterised:
for a positive spacing, a non-empty exclusion shell and a threshold `t ≥ 0`,
it holds at a voxel iff the voxel is outside the exclusion zone (where the
signed map is `≤ 0`) or is inside it at physical distance `< t` from the
zone's boundary. -/
lemma exclBelow_iff {ez : Vol} {conn : ℕ} {sp : ℚ × ℚ × ℚ} {t : ℚ} {p : Idx}
    (hsp : 0 < sp.1 ∧ 0 < sp.2.1 ∧ 0 < sp.2.2) (ht : 0 ≤ t)
    (hez : shellVoxels ez conn ≠ []) :
    exclBelow ez conn sp t p = true ↔
      (ez.get p = false ∨
        Real.sqrt ((edtSq (shellVoxels ez conn) sp p : ℚ) : ℝ) < ((t : ℚ) : ℝ)) := by
  rw [exclBelow, decide_eq_true_eq, exclusionDistMap]
  cases hz : ez.get p
  · have hpos : (0 : ℝ) < edt (shellVoxels ez conn) sp p := by
      rw [edt]
      refine Real.sqrt_pos.2 ?_
      have hnot : p ∉ shellVoxels ez conn := by
        intro hmem
        rw [get_of_shellAt (mem_shellVoxels.1 hmem)] at hz
        cases hz
      exact_mod_cast edtSq_pos_of_not_mem hsp hez hnot
    have hmask : distmaskOf ez p = -1 := by rw [distmaskOf, if_neg (by simp [hz])]
    rw [hmask]
    constructor
    · intro _
      exact Or.inl rfl
    · intro _
      refine EReal.coe_lt_coe_iff.2 ?_
      have htr : (0 : ℝ) ≤ ((t : ℚ) : ℝ) := by exact_mod_cast ht
      push_cast
      nlinarith
  · have hmask : distmaskOf ez p = 1 := by rw [distmaskOf, if_pos hz]
    rw [hmask]
    constructor
    · intro h
      refine Or.inr ?_
      have := EReal.coe_lt_coe_iff.1 h
      rw [edt] at this
      simpa using this
    · rintro (h | h)
      · cases h
      · refine EReal.coe_lt_coe_iff.2 ?_
        rw [edt]
        simpa using h

/-- C2 counterexample: a boundary-shell voxel whose physical distance to the
exclusion zone's boundary is `8 ≥ 5` is still zeroed, because the signed map
is negative (`-8 < 5`) everywhere outside the zone.  The "within threshold
distance of the boundary, on either side" characterisation is false. -/
theorem c2_exclusion_masker_counterexample :
    shellAt exLineEnd9 1 (8, (0, 0)) = true ∧
    (5 : ℝ) ≤ Real.sqrt ((edtSq (shellVoxels exLineStart9 1) (1, (1, 1)) (8, (0, 0)) : ℚ) : ℝ) ∧
    compute_distances exLineEnd9 exLineEnd9 (some exLineStart9) (1, (1, 1)) 1 false 5 =
      .ok (cdResultExcl exLineEnd9 exLineEnd9 exLineStart9 (1, (1, 1)) 1 5) ∧
    (cdResultExcl exLineEnd9 exLineEnd9 exLineStart9 (1, (1, 1)) 1 5).borders_gt.get
      (8, (0, 0)) = false := by
  have hs1 : shellVoxels exLineStart9 1 = [(0, (0, 0))] := by decide
  have hsq : edtSq (shellVoxels exLineStart9 1) (1, (1, 1)) (8, (0, 0)) = 64 := by
    rw [edtSq, hs1]
    show sqDist (1, (1, 1)) (8, (0, 0)) (0, (0, 0)) = 64
    norm_num [sqDist]
  have hsqrt : Real.sqrt ((edtSq (shellVoxels exLineStart9 1) (1, (1, 1)) (8, (0, 0)) : ℚ) : ℝ)
      = 8 := by
    rw [hsq, show (((64 : ℚ)) : ℝ) = (8 : ℝ) ^ 2 by norm_num, Real.sqrt_sq (by norm_num)]
  have hedt : edt (shellVoxels exLineStart9 1) (1, (1, 1)) (8, (0, 0)) = 8 := by
    rw [edt]
    exact hsqrt
  have hrun : compute_distances exLineEnd9 exLineEnd9 (some exLineStart9) (1, (1, 1)) 1 false 5 =
      .ok (cdResultExcl exLineEnd9 exLineEnd9 exLineStart9 (1, (1, 1)) 1 5) := by
    rw [compute_distances_nocrop, cdCore_ok_excl (by decide)]
  have hb : exclBelow exLineStart9 1 (1, (1, 1)) 5 (8, (0, 0)) = true := by
    rw [exclBelow, decide_eq_true_eq, exclusionDistMap]
    have hmask : distmaskOf exLineStart9 (8, (0, 0)) = -1 := by decide
    rw [hmask, hedt]
    refine EReal.coe_lt_coe_iff.2 ?_
    push_cast
    norm_num
  refine ⟨by decide, by rw [hsqrt]; norm_num, hrun, ?_⟩
  show (maskedBorders (shellVol exLineEnd9 1) exLineStart9 1 (1, (1, 1)) 5).get (8, (0, 0)) =
    false
  rw [maskedBorders_get, hb]
  simp

/-- C2 (amended): when an exclusion zone is supplied, a voxel of either
boundary shell survives iff it was in the shell and the exclusion zone's
signed distance map at it is not below the threshold (the confirmed half of
the claim); and, for positive spacing, non-empty exclusion shell and
threshold `t ≥ 0`, "below the threshold" holds exactly at the voxels
*outside* the exclusion zone — at any distance — together with the voxels
inside it within physical distance `t` of its boundary (the corrected
characterisation). -/
theorem c2_exclusion_masker_amended (mask_gt mask_pred ez0 : Vol) (sp : ℚ × ℚ × ℚ)
    (conn : ℕ) (crop : Bool) (t : ℚ) (mg mp ez : Vol) (r : CDResult)
    (hcrop : cropPhase mask_gt mask_pred (some ez0) crop = .ok (mg, mp, some ez))
    (hrun : compute_distances mask_gt mask_pred (some ez0) sp conn crop t = .ok r)
    (hsp : 0 < sp.1 ∧ 0 < sp.2.1 ∧ 0 < sp.2.2) (ht : 0 ≤ t)
    (hez : shellVoxels ez conn ≠ []) :
    (∀ p : Idx,
      r.borders_gt.get p = ((shellVol mg conn).get p && !exclBelow ez conn sp t p) ∧
      r.borders_pred.get p = ((shellVol mp conn).get p && !exclBelow ez conn sp t p)) ∧
    (∀ p : Idx,
      exclBelow ez conn sp t p = true ↔
        (ez.get p = false ∨
          Real.sqrt ((edtSq (shellVoxels ez conn) sp p : ℚ) : ℝ) < ((t : ℚ) : ℝ))) := by
  have hcore : cdCore mg mp (some ez) sp conn t = .ok r := by
    rw [← compute_distances_eq_core mask_gt mask_pred (some ez0) crop mg mp (some ez) sp conn t
      hcrop]
    exact hrun
  have hr := cdCore_excl_eq hcore
  subst hr
  refine ⟨fun p => ⟨?_, ?_⟩, fun p => exclBelow_iff hsp ht hez⟩
  · exact maskedBorders_get (shellVol mg conn) ez conn sp t p
  · exact maskedBorders_get (shellVol mp conn) ez conn sp t p

/-- Witness for the amended C2 at a concrete run. -/
theorem c2_exclusion_masker_amended_witness :
    cropPhase exLineEnd9 exLineEnd9 (some exLineStart9) false =
      .ok (exLineEnd9, exLineEnd9, some exLineStart9) ∧
    compute_distances exLineEnd9 exLineEnd9 (some exLineStart9) (1, (1, 1)) 1 false 5 =
      .ok (cdResultExcl exLineEnd9 exLineEnd9 exLineStart9 (1, (1, 1)) 1 5) ∧
    shellVoxels exLineStart9 1 ≠ [] ∧
    (cdResultExcl exLineEnd9 exLineEnd9 exLineStart9 (1, (1, 1)) 1 5).borders_gt.get
        (8, (0, 0)) =
      ((shellVol exLineEnd9 1).get (8, (0, 0)) &&
        !exclBelow exLineStart9 1 (1, (1, 1)) 5 (8, (0, 0))) := by
  have h1 : cropPhase exLineEnd9 exLineEnd9 (some exLineStart9) false =
      .ok (exLineEnd9, exLineEnd9, some exLineStart9) := rfl
  have h2 : compute_distances exLineEnd9 exLineEnd9 (some exLineStart9) (1, (1, 1)) 1 false 5 =
      .ok (cdResultExcl exLineEnd9 exLineEnd9 exLineStart9 (1, (1, 1)) 1 5) := by
    rw [compute_distances_nocrop, cdCore_ok_excl (by decide)]
  have h3 : shellVoxels exLineStart9 1 ≠ [] := by decide
  exact ⟨h1, h2, h3,
    ((c2_exclusion_masker_amended exLineEnd9 exLineEnd9 exLineStart9 (1, (1, 1)) 1 false 5
      exLineEnd9 exLineEnd9 exLineStart9 _ h1 h2 (by norm_num) (by norm_num) h3).1
      (8, (0, 0))).1⟩

/-! ## C4: swapping the target and predicted volumes swaps the lists -/

lemma compute_bounding_box_congr {a b c a' b' c' : Vol}
    (h : unionVol a b c = unionVol a' b' c') :
    compute_bounding_box a b c = compute_bounding_box a' b' c' := by
  simp only [compute_bounding_box]
  rw [h]

lemma unionVol_comm {a b : Vol} (c : Vol) (hsh : a.shape = b.shape) :
    unionVol a b c = unionVol b a c := by
  rw [unionVol, unionVol, hsh]
  congr 1
  funext p
  rw [Bool.or_comm (a.get p) (b.get p)]

lemma unionVol_fallback_comm {a b : Vol} (hsh : a.shape = b.shape) :
    unionVol a b a = unionVol b a b := by
  rw [unionVol, unionVol, hsh]
  congr 1
  funext p
  cases ha : a.get p <;> cases hb : b.get p <;> rfl

lemma cropPhase_true_some (mask_gt mask_pred ez : Vol) :
    cropPhase mask_gt mask_pred (some ez) true =
      match compute_bounding_box mask_gt mask_pred ez with
      | .error e => .error e
      | .ok (bmin, bmax) =>
        .ok (crop_mask mask_gt bmin bmax, crop_mask mask_pred bmin bmax,
          some (crop_mask ez bmin bmax)) := rfl

lemma cropPhase_true_none (mask_gt mask_pred : Vol) :
    cropPhase mask_gt mask_pred none true =
      match compute_bounding_box mask_gt mask_pred mask_gt with
      | .error e => .error e
      | .ok (bmin, bmax) =>
        .ok (crop_mask mask_gt bmin bmax, crop_mask mask_pred bmin bmax, none) := rfl

lemma cropPhase_swap_eq {mask_gt mask_pred : Vol} {exclusion_zone : Option Vol} {crop : Bool}
    (hsh : mask_gt.shape = mask_pred.shape) :
    cropPhase mask_pred mask_gt exclusion_zone crop =
      (cropPhase mask_gt mask_pred exclusion_zone crop).map fun x => (x.2.1, (x.1, x.2.2)) := by
  cases crop with
  | false => rfl
  | true =>
    cases exclusion_zone with
    | some ez =>
      have hbb : compute_bounding_box mask_pred mask_gt ez =
          compute_bounding_box mask_gt mask_pred ez :=
        compute_bounding_box_congr (unionVol_comm ez hsh.symm)
      rw [cropPhase_true_some, cropPhase_true_some, hbb]
      cases hcb : compute_bounding_box mask_gt mask_pred ez with
      | error e => rfl
      | ok bb =>
        obtain ⟨bmin, bmax⟩ := bb
        rfl
    | none =>
      have hbb : compute_bounding_box mask_pred mask_gt mask_pred =
          compute_bounding_box mask_gt mask_pred mask_gt :=
        compute_bounding_box_congr (unionVol_fallback_comm hsh.symm)
      rw [cropPhase_true_none, cropPhase_true_none, hbb]
      cases hcb : compute_bounding_box mask_gt mask_pred mask_gt with
      | error e => rfl
      | ok bb =>
        obtain ⟨bmin, bmax⟩ := bb
        rfl

lemma cropPhase_swap {mask_gt mask_pred : Vol} {exclusion_zone : Option Vol} {crop : Bool}
    {mg mp : Vol} {oez : Option Vol} (hsh : mask_gt.shape = mask_pred.shape)
    (h : cropPhase mask_gt mask_pred exclusion_zone crop = .ok (mg, mp, oez)) :
    cropPhase mask_pred mask_gt exclusion_zone crop = .ok (mp, mg, oez) := by
  rw [cropPhase_swap_eq hsh, h]
  rfl

lemma cdCore_swap (mg mp : Vol) (oez : Option Vol) (sp : ℚ × ℚ × ℚ) (conn : ℕ) (t : ℚ)
    (hmp : shellVoxels mp conn ≠ []) (hmg : shellVoxels mg conn ≠ []) :
    (cdCore mp mg oez sp conn t).map
      (fun r => (r.distances_gt_to_pred, r.distances_pred_to_gt)) =
    (cdCore mg mp oez sp conn t).map
      (fun r => (r.distances_pred_to_gt, r.distances_gt_to_pred)) := by
  rw [cdCore.eq_def, cdCore.eq_def, if_neg hmg, if_neg hmp]
  cases oez with
  | some ez => rfl
  | none => rfl

/-- C4: with shapes equal and both runs succeeding, swapping the target and
predicted volumes in `compute_distances` exactly swaps the two returned
distance lists, element for element. -/
theorem c4_swap_symmetry (mask_gt mask_pred : Vol) (exclusion_zone : Option Vol)
    (sp : ℚ × ℚ × ℚ) (conn : ℕ) (crop : Bool) (t : ℚ)
    (hsh : mask_gt.shape = mask_pred.shape)
    (h1 : cdOk mask_gt mask_pred exclusion_zone conn crop = true)
    (h2 : cdOk mask_pred mask_gt exclusion_zone conn crop = true) :
    (compute_distances mask_pred mask_gt exclusion_zone sp conn crop t).map
      (fun r => (r.distances_gt_to_pred, r.distances_pred_to_gt)) =
    (compute_distances mask_gt mask_pred exclusion_zone sp conn crop t).map
      (fun r => (r.distances_pred_to_gt, r.distances_gt_to_pred)) := by
  cases hcp : cropPhase mask_gt mask_pred exclusion_zone crop with
  | error e =>
    rw [cdOk, hcp] at h1
    cases h1
  | ok triple =>
    obtain ⟨mg, mp, oez⟩ := triple
    have hswap := cropPhase_swap hsh hcp
    have hmp : shellVoxels mp conn ≠ [] := by
      rw [cdOk, hcp] at h1
      simpa [List.isEmpty_iff] using h1
    have hmg : shellVoxels mg conn ≠ [] := by
      rw [cdOk, hswap] at h2
      simpa [List.isEmpty_iff] using h2
    rw [compute_distances_eq_core mask_gt mask_pred exclusion_zone crop mg mp oez sp conn t hcp,
      compute_distances_eq_core mask_pred mask_gt exclusion_zone crop mp mg oez sp conn t hswap]
    exact cdCore_swap mg mp oez sp conn t hmp hmg

/-- Witness for C4 at a concrete pair of runs. -/
theorem c4_swap_symmetry_witness :
    exMid311.shape = exStart311.shape ∧
    cdOk exMid311 exStart311 none 1 false = true ∧
    cdOk exStart311 exMid311 none 1 false = true ∧
    (compute_distances exStart311 exMid311 none (1, (1, 1)) 1 false 5).map
      (fun r => (r.distances_gt_to_pred, r.distances_pred_to_gt)) =
    (compute_distances exMid311 exStart311 none (1, (1, 1)) 1 false 5).map
      (fun r => (r.distances_pred_to_gt, r.distances_gt_to_pred)) :=
  ⟨rfl, by decide, by decide,
    c4_swap_symmetry exMid311 exStart311 none (1, (1, 1)) 1 false 5 rfl (by decide) (by decide)⟩

/-! ## C7: exclusion monotonicity

The crop=true case needs that the whole post-crop pipeline is invariant
under the translation induced by cropping: cropping to any box that
contains a region translates its boundary shell, its distance maps and the
extracted distance lists without changing any value or the row-major
order. -/

/-- Componentwise translation of an index. -/
def tAdd (d p : Idx) : Idx := (d.1 + p.1, (d.2.1 + p.2.1, d.2.2 + p.2.2))

/-- Componentwise difference of an index and a translation. -/
def tSub (p d : Idx) : Idx := (p.1 - d.1, (p.2.1 - d.2.1, p.2.2 - d.2.2))

lemma tAdd_tSub (d q : Idx) : tAdd d (tSub q d) = q := by
  rw [tAdd, tSub]
  refine Prod.ext ?_ (Prod.ext ?_ ?_) <;> dsimp <;> omega

lemma tSub_tAdd (d p : Idx) : tSub (tAdd d p) d = p := by
  rw [tAdd, tSub]
  refine Prod.ext ?_ (Prod.ext ?_ ?_) <;> dsimp <;> omega

/-- Row-major (lexicographic) order on voxel indices. -/
def lexLt (a b : Idx) : Prop :=
  a.1 < b.1 ∨ (a.1 = b.1 ∧ (a.2.1 < b.2.1 ∨ (a.2.1 = b.2.1 ∧ a.2.2 < b.2.2)))

lemma lexLt_irrefl (a : Idx) : ¬lexLt a a := by
  unfold lexLt
  omega

lemma lexLt_asymm {a b : Idx} (h : lexLt a b) : ¬lexLt b a := by
  unfold lexLt at h ⊢
  omega

lemma lexLt_tSub {a b d : Idx} (h : lexLt a b) : lexLt (tSub a d) (tSub b d) := by
  unfold lexLt at h ⊢
  unfold tSub
  dsimp
  omega

/-- Two strictly lex-sorted index lists with the same members are equal. -/
lemma eq_of_pairwise_lexLt_mem : ∀ {l₁ l₂ : List Idx}, l₁.Pairwise lexLt →
    l₂.Pairwise lexLt → (∀ x, x ∈ l₁ ↔ x ∈ l₂) → l₁ = l₂ := by
  intro l₁
  induction l₁ with
  | nil =>
    intro l₂ _ _ hmem
    cases l₂ with
    | nil => rfl
    | cons y ys => exact absurd ((hmem y).2 (List.mem_cons_self _ _)) (List.not_mem_nil y)
  | cons x xs ih =>
    intro l₂ h₁ h₂ hmem
    cases l₂ with
    | nil => exact absurd ((hmem x).1 (List.mem_cons_self _ _)) (List.not_mem_nil x)
    | cons y ys =>
      have hxy : x = y := by
        rcases List.mem_cons.1 ((hmem x).1 (List.mem_cons_self _ _)) with h | hx
        · exact h
        · rcases List.mem_cons.1 ((hmem y).2 (List.mem_cons_self _ _)) with h | hy
          · exact h.symm
          · have hlt1 : lexLt x y := (List.pairwise_cons.1 h₁).1 y hy
            have hlt2 : lexLt y x := (List.pairwise_cons.1 h₂).1 x hx
            exact absurd hlt1 (lexLt_asymm hlt2)
      subst hxy
      have htail : ∀ a, a ∈ xs ↔ a ∈ ys := by
        intro a
        constructor
        · intro ha
          have hmem2 : a ∈ x :: ys := (hmem a).1 (List.mem_cons_of_mem _ ha)
          rcases List.mem_cons.1 hmem2 with h | h
          · subst h
            exact absurd ((List.pairwise_cons.1 h₁).1 a ha) (lexLt_irrefl a)
          · exact h
        · intro ha
          have hmem2 : a ∈ x :: xs := (hmem a).2 (List.mem_cons_of_mem _ ha)
          rcases List.mem_cons.1 hmem2 with h | h
          · subst h
            exact absurd ((List.pairwise_cons.1 h₂).1 a ha) (lexLt_irrefl a)
          · exact h
      rw [ih (List.pairwise_cons.1 h₁).2 (List.pairwise_cons.1 h₂).2 htail]

/-- The row-major voxel enumeration is strictly lex-sorted. -/
lemma pairwise_voxelList (s : ℕ × ℕ × ℕ) : (voxelList s).Pairwise lexLt := by
  unfold voxelList
  rw [List.pairwise_flatMap]
  constructor
  · intro i _
    rw [List.pairwise_flatMap]
    constructor
    · intro j _
      rw [List.pairwise_map]
      refine List.Pairwise.imp ?_ (List.pairwise_lt_range _)
      intro a b hab
      exact Or.inr ⟨rfl, Or.inr ⟨rfl, (show (a : ℤ) < (b : ℤ) by exact_mod_cast hab)⟩⟩
    · refine List.Pairwise.imp ?_ (List.pairwise_lt_range _)
      intro j₁ j₂ hj x hx y hy
      obtain ⟨k₁, _, rfl⟩ := List.mem_map.1 hx
      obtain ⟨k₂, _, rfl⟩ := List.mem_map.1 hy
      exact Or.inr ⟨rfl, Or.inl (show (j₁ : ℤ) < (j₂ : ℤ) by exact_mod_cast hj)⟩
  · refine List.Pairwise.imp ?_ (List.pairwise_lt_range _)
    intro i₁ i₂ hi x hx y hy
    obtain ⟨j₁, _, hx2⟩ := List.mem_flatMap.1 hx
    obtain ⟨k₁, _, rfl⟩ := List.mem_map.1 hx2
    obtain ⟨j₂, _, hy2⟩ := List.mem_flatMap.1 hy
    obtain ⟨k₂, _, rfl⟩ := List.mem_map.1 hy2
    exact Or.inl (show (i₁ : ℤ) < (i₂ : ℤ) by exact_mod_cast hi)

/-- Filtering the enumeration of the cropped shape by a translated predicate
is the translated filter of the global enumeration, provided the predicate's
support lies in both windows. -/
lemma filter_voxelList_translate {d : Idx} {sC sG : ℕ × ℕ × ℕ} {P Q : Idx → Bool}
    (hPQ : ∀ p, P p = Q (tAdd d p))
    (hsupp : ∀ q, Q q = true → inShape sG q = true ∧ inShape sC (tSub q d) = true) :
    (voxelList sC).filter P = ((voxelList sG).filter Q).map (fun q => tSub q d) := by
  apply eq_of_pairwise_lexLt_mem
  · exact (pairwise_voxelList sC).filter P
  · rw [List.pairwise_map]
    exact List.Pairwise.imp (fun h => lexLt_tSub h) ((pairwise_voxelList sG).filter Q)
  · intro x
    simp only [List.mem_filter, List.mem_map, mem_voxelList]
    constructor
    · rintro ⟨hx, hPx⟩
      have hQ : Q (tAdd d x) = true := by rw [← hPQ]; exact hPx
      exact ⟨tAdd d x, ⟨⟨(hsupp _ hQ).1, hQ⟩, tSub_tAdd d x⟩⟩
    · rintro ⟨q, ⟨⟨hq, hQq⟩, rfl⟩⟩
      refine ⟨(hsupp q hQq).2, ?_⟩
      rw [hPQ, tAdd_tSub]
      exact hQq

/-! ### Bounding-box bounds -/

lemma foldl_minNat_le_init (xs : List ℕ) (x : ℕ) : xs.foldl min x ≤ x := by
  induction xs generalizing x with
  | nil => exact le_refl x
  | cons y ys ih => exact le_trans (ih (min x y)) (min_le_left x y)

lemma foldl_minNat_le_mem (xs : List ℕ) (x : ℕ) {a : ℕ} (h : a ∈ xs) : xs.foldl min x ≤ a := by
  induction xs generalizing x with
  | nil => cases h
  | cons y ys ih =>
    rcases List.mem_cons.1 h with rfl | h'
    · exact le_trans (foldl_minNat_le_init ys (min x a)) (min_le_right x a)
    · exact ih (min x y) h'

lemma minNat_le {l : List ℕ} {a : ℕ} (h : a ∈ l) : minNat l ≤ a := by
  match l with
  | [] => cases h
  | x :: xs =>
    rcases List.mem_cons.1 h with rfl | h'
    · exact foldl_minNat_le_init xs a
    · exact foldl_minNat_le_mem xs x h'

lemma init_le_foldl_maxNat (xs : List ℕ) (x : ℕ) : x ≤ xs.foldl max x := by
  induction xs generalizing x with
  | nil => exact le_refl x
  | cons y ys ih => exact le_trans (le_max_left x y) (ih (max x y))

lemma mem_le_foldl_maxNat (xs : List ℕ) (x : ℕ) {a : ℕ} (h : a ∈ xs) : a ≤ xs.foldl max x := by
  induction xs generalizing x with
  | nil => cases h
  | cons y ys ih =>
    rcases List.mem_cons.1 h with rfl | h'
    · exact le_trans (le_max_right x a) (init_le_foldl_maxNat ys (max x a))
    · exact ih (max x y) h'

lemma le_maxNat {l : List ℕ} {a : ℕ} (h : a ∈ l) : a ≤ maxNat l := by
  match l with
  | [] => cases h
  | x :: xs =>
    rcases List.mem_cons.1 h with rfl | h'
    · exact init_le_foldl_maxNat xs a
    · exact mem_le_foldl_maxNat xs x h'

lemma toNat_mem_nonzero0 {v : Vol} {q : Idx} (h : v.get q = true) : q.1.toNat ∈ nonzero0 v := by
  have hin := inShape_of_get h
  rw [inShape_iff] at hin
  rw [nonzero0, List.mem_filter]
  refine ⟨List.mem_range.2 (by omega), ?_⟩
  refine List.any_eq_true.2 ⟨q.2.1.toNat, List.mem_range.2 (by omega), ?_⟩
  refine List.any_eq_true.2 ⟨q.2.2.toNat, List.mem_range.2 (by omega), ?_⟩
  rw [Int.toNat_of_nonneg hin.1, Int.toNat_of_nonneg hin.2.2.1, Int.toNat_of_nonneg hin.2.2.2.2.1]
  exact h

lemma toNat_mem_nonzero1 {v : Vol} {q : Idx} (h : v.get q = true) : q.2.1.toNat ∈ nonzero1 v := by
  have hin := inShape_of_get h
  rw [inShape_iff] at hin
  rw [nonzero1, List.mem_filter]
  refine ⟨List.mem_range.2 (by omega), ?_⟩
  refine List.any_eq_true.2 ⟨q.1.toNat, List.mem_range.2 (by omega), ?_⟩
  refine List.any_eq_true.2 ⟨q.2.2.toNat, List.mem_range.2 (by omega), ?_⟩
  rw [Int.toNat_of_nonneg hin.1, Int.toNat_of_nonneg hin.2.2.1, Int.toNat_of_nonneg hin.2.2.2.2.1]
  exact h

lemma toNat_mem_nonzero2 {v : Vol} {q : Idx} (h : v.get q = true) : q.2.2.toNat ∈ nonzero2 v := by
  have hin := inShape_of_get h
  rw [inShape_iff] at hin
  rw [nonzero2, List.mem_filter]
  refine ⟨List.mem_range.2 (by omega), ?_⟩
  refine List.any_eq_true.2 ⟨q.1.toNat, List.mem_range.2 (by omega), ?_⟩
  refine List.any_eq_true.2 ⟨q.2.1.toNat, List.mem_range.2 (by omega), ?_⟩
  rw [Int.toNat_of_nonneg hin.1, Int.toNat_of_nonneg hin.2.2.1, Int.toNat_of_nonneg hin.2.2.2.2.1]
  exact h

/-- A successful bounding box is nonnegative, ordered, and contains every
true voxel of the union volume. -/
lemma compute_bounding_box_ok_bounds {a b c : Vol} {bmin bmax : Idx}
    (h : compute_bounding_box a b c = .ok (bmin, bmax)) :
    (0 ≤ bmin.1 ∧ 0 ≤ bmin.2.1 ∧ 0 ≤ bmin.2.2) ∧
    (bmin.1 ≤ bmax.1 ∧ bmin.2.1 ≤ bmax.2.1 ∧ bmin.2.2 ≤ bmax.2.2) ∧
    (∀ q : Idx, (unionVol a b c).get q = true →
      bmin.1 ≤ q.1 ∧ q.1 ≤ bmax.1 ∧ bmin.2.1 ≤ q.2.1 ∧ q.2.1 ≤ bmax.2.1 ∧
      bmin.2.2 ≤ q.2.2 ∧ q.2.2 ≤ bmax.2.2) := by
  simp only [compute_bounding_box] at h
  cases h0 : nonzero0 (unionVol a b c) with
  | nil => rw [h0] at h; cases h
  | cons x0 r0 =>
  cases h1 : nonzero1 (unionVol a b c) with
  | nil => rw [h0, h1] at h; cases h
  | cons x1 r1 =>
  cases h2 : nonzero2 (unionVol a b c) with
  | nil => rw [h0, h1, h2] at h; cases h
  | cons x2 r2 =>
  rw [h0, h1, h2] at h
  simp only [Except.ok.injEq, Prod.mk.injEq] at h
  obtain ⟨hbmin, hbmax⟩ := h
  subst hbmin
  subst hbmax
  refine ⟨⟨Int.natCast_nonneg _, Int.natCast_nonneg _, Int.natCast_nonneg _⟩,
    ⟨?_, ?_, ?_⟩, ?_⟩
  · show ((minNat (x0 :: r0) : ℕ) : ℤ) ≤ ((maxNat (x0 :: r0) : ℕ) : ℤ)
    exact_mod_cast le_trans (minNat_le (List.mem_cons_self _ _))
      (le_maxNat (List.mem_cons_self _ _))
  · show ((minNat (x1 :: r1) : ℕ) : ℤ) ≤ ((maxNat (x1 :: r1) : ℕ) : ℤ)
    exact_mod_cast le_trans (minNat_le (List.mem_cons_self _ _))
      (le_maxNat (List.mem_cons_self _ _))
  · show ((minNat (x2 :: r2) : ℕ) : ℤ) ≤ ((maxNat (x2 :: r2) : ℕ) : ℤ)
    exact_mod_cast le_trans (minNat_le (List.mem_cons_self _ _))
      (le_maxNat (List.mem_cons_self _ _))
  · intro q hq
    have hq0 := toNat_mem_nonzero0 hq
    have hq1 := toNat_mem_nonzero1 hq
    have hq2 := toNat_mem_nonzero2 hq
    rw [h0] at hq0
    rw [h1] at hq1
    rw [h2] at hq2
    have hn0a := minNat_le hq0
    have hn0b := le_maxNat hq0
    have hn1a := minNat_le hq1
    have hn1b := le_maxNat hq1
    have hn2a := minNat_le hq2
    have hn2b := le_maxNat hq2
    have hin := inShape_of_get hq
    rw [inShape_iff] at hin
    refine ⟨?_, ?_, ?_, ?_, ?_, ?_⟩ <;> dsimp only <;> omega

/-! ### Transport of the pipeline along the crop translation -/

/-- Componentwise box membership, inclusive. -/
def inBox (bmin bmax q : Idx) : Prop :=
  bmin.1 ≤ q.1 ∧ q.1 ≤ bmax.1 ∧ bmin.2.1 ≤ q.2.1 ∧ q.2.1 ≤ bmax.2.1 ∧
  bmin.2.2 ≤ q.2.2 ∧ q.2.2 ≤ bmax.2.2

/-- When the box contains all true voxels of `mask`, reading the crop at `p`
is reading the source at `bbox_min + p` — out-of-window positions are
background on both sides. -/
lemma crop_get_eq {m : Vol} {bmin bmax : Idx}
    (hreg : ∀ q, m.get q = true → inBox bmin bmax q) (p : Idx) :
    (crop_mask m bmin bmax).get p = m.get (tAdd bmin p) := by
  rw [tAdd]
  by_cases hcube : 0 ≤ p.1 ∧ p.1 ≤ bmax.1 - bmin.1 ∧ 0 ≤ p.2.1 ∧
      p.2.1 ≤ bmax.2.1 - bmin.2.1 ∧ 0 ≤ p.2.2 ∧ p.2.2 ≤ bmax.2.2 - bmin.2.2
  · have hin : inShape (crop_mask m bmin bmax).shape p = true := by
      rw [inShape_iff]
      simp only [crop_mask]
      refine ⟨hcube.1, ?_, hcube.2.2.1, ?_, hcube.2.2.2.2.1, ?_⟩ <;> omega
    rw [Vol.get, hin, Bool.true_and]
    simp only [crop_mask]
    rw [decide_eq_true ⟨hcube.1, hcube.2.1⟩,
      decide_eq_true ⟨hcube.2.2.1, hcube.2.2.2.1⟩,
      decide_eq_true ⟨hcube.2.2.2.2.1, hcube.2.2.2.2.2⟩,
      Bool.true_and, Bool.true_and, Bool.true_and]
  · have hm : m.get (bmin.1 + p.1, (bmin.2.1 + p.2.1, bmin.2.2 + p.2.2)) = false := by
      cases hmg : m.get (bmin.1 + p.1, (bmin.2.1 + p.2.1, bmin.2.2 + p.2.2)) with
      | false => rfl
      | true =>
        exfalso
        have hb := hreg _ hmg
        rw [inBox] at hb
        dsimp only at hb
        exact hcube ⟨by omega, by omega, by omega, by omega, by omega, by omega⟩
    rw [Vol.get]
    simp only [crop_mask]
    rw [hm]
    simp

lemma erodeAt_trans {v w : Vol} {d : Idx} (h : ∀ p, w.get p = v.get (tAdd d p))
    (conn : ℕ) (p : Idx) : erodeAt w conn p = erodeAt v conn (tAdd d p) := by
  rw [erodeAt, erodeAt]
  congr 1
  funext o
  rw [h (p.1 + o.1, (p.2.1 + o.2.1, p.2.2 + o.2.2))]
  congr 1
  rw [tAdd, tAdd]
  refine Prod.ext ?_ (Prod.ext ?_ ?_) <;> dsimp <;> ring

lemma shellAt_trans {v w : Vol} {d : Idx} (h : ∀ p, w.get p = v.get (tAdd d p))
    (conn : ℕ) (p : Idx) : shellAt w conn p = shellAt v conn (tAdd d p) := by
  rw [shellAt, shellAt, h p, erodeAt_trans h conn p]

lemma shellVol_get (v : Vol) (conn : ℕ) (p : Idx) :
    (shellVol v conn).get p = shellAt v conn p := by
  show (inShape v.shape p && shellAt v conn p) = shellAt v conn p
  cases hs : shellAt v conn p
  · simp
  · rw [inShape_of_get (get_of_shellAt hs), Bool.true_and]

lemma shellVoxels_trans {v w : Vol} {d : Idx} {conn : ℕ}
    (h : ∀ p, w.get p = v.get (tAdd d p))
    (hsupp : ∀ q, shellAt v conn q = true → inShape w.shape (tSub q d) = true) :
    shellVoxels w conn = (shellVoxels v conn).map (fun q => tSub q d) := by
  rw [shellVoxels, shellVoxels]
  refine @filter_voxelList_translate d w.shape v.shape (shellAt w conn) (shellAt v conn)
    ?_ ?_
  · intro p
    exact shellAt_trans h conn p
  · intro q hq
    exact ⟨inShape_of_get (get_of_shellAt hq), hsupp q hq⟩

lemma edtSq_trans (S : List Idx) (d : Idx) (sp : ℚ × ℚ × ℚ) (p : Idx) :
    edtSq (S.map (fun q => tSub q d)) sp p = edtSq S sp (tAdd d p) := by
  rw [edtSq, edtSq, List.map_map]
  congr 1
  apply List.map_congr_left
  intro q _
  show sqDist sp p (tSub q d) = sqDist sp (tAdd d p) q
  rw [sqDist, sqDist, tSub, tAdd]
  dsimp only
  push_cast
  ring

lemma signedDistMap_trans {v w : Vol} {d : Idx} {conn : ℕ} (sp : ℚ × ℚ × ℚ)
    (h : ∀ p, w.get p = v.get (tAdd d p))
    (hshell : shellVoxels w conn = (shellVoxels v conn).map (fun q => tSub q d)) (p : Idx) :
    signedDistMap w conn sp p = signedDistMap v conn sp (tAdd d p) := by
  rw [signedDistMap, signedDistMap, hshell]
  by_cases hv : shellVoxels v conn = []
  · rw [hv]
    simp
  · rw [if_neg (by simpa using hv), if_neg hv]
    have hd : distmaskOf w p = distmaskOf v (tAdd d p) := by
      rw [distmaskOf, distmaskOf, h p]
    rw [hd, edt, edt, edtSq_trans]

lemma exclusionDistMap_trans {v w : Vol} {d : Idx} {conn : ℕ} (sp : ℚ × ℚ × ℚ)
    (h : ∀ p, w.get p = v.get (tAdd d p))
    (hshell : shellVoxels w conn = (shellVoxels v conn).map (fun q => tSub q d)) (p : Idx) :
    exclusionDistMap w conn sp p = exclusionDistMap v conn sp (tAdd d p) := by
  rw [exclusionDistMap, exclusionDistMap, hshell]
  have hd : distmaskOf w p = distmaskOf v (tAdd d p) := by
    rw [distmaskOf, distmaskOf, h p]
  rw [hd, edt, edt, edtSq_trans]

lemma exclBelow_trans {v w : Vol} {d : Idx} {conn : ℕ} (sp : ℚ × ℚ × ℚ) (t : ℚ)
    (h : ∀ p, w.get p = v.get (tAdd d p))
    (hshell : shellVoxels w conn = (shellVoxels v conn).map (fun q => tSub q d)) (p : Idx) :
    exclBelow w conn sp t p = exclBelow v conn sp t (tAdd d p) := by
  rw [exclBelow, exclBelow, exclusionDistMap_trans sp h hshell p]

lemma inShape_crop_of_inBox {m : Vol} {bmin bmax q : Idx} (hq : inBox bmin bmax q) :
    inShape (crop_mask m bmin bmax).shape (tSub q bmin) = true := by
  rw [inShape_iff]
  simp only [crop_mask, tSub]
  rw [inBox] at hq
  refine ⟨?_, ?_, ?_, ?_, ?_, ?_⟩ <;> dsimp only <;> omega

/-- One distance list of the cropped pipeline equals the corresponding list
of the uncropped pipeline: the filtered row-major enumeration translates and
the sampled distance-map values are translation invariant. -/
lemma crop_list_trans (m other : Vol) (bmin bmax : Idx) (sp : ℚ × ℚ × ℚ) (conn : ℕ)
    (hm : ∀ q, m.get q = true → inBox bmin bmax q)
    (hother : ∀ q, other.get q = true → inBox bmin bmax q)
    (aC aG : Idx → Bool) (ha : ∀ p, aC p = aG (tAdd bmin p)) :
    ((voxelList (crop_mask m bmin bmax).shape).filter
        (fun p => shellAt (crop_mask m bmin bmax) conn p && aC p)).map
      (signedDistMap (crop_mask other bmin bmax) conn sp)
    = ((voxelList m.shape).filter (fun q => shellAt m conn q && aG q)).map
      (signedDistMap other conn sp) := by
  have hgetM : ∀ p, (crop_mask m bmin bmax).get p = m.get (tAdd bmin p) := crop_get_eq hm
  have hgetO : ∀ p, (crop_mask other bmin bmax).get p = other.get (tAdd bmin p) :=
    crop_get_eq hother
  have hshO : shellVoxels (crop_mask other bmin bmax) conn =
      (shellVoxels other conn).map (fun q => tSub q bmin) :=
    shellVoxels_trans hgetO
      (fun q hq => inShape_crop_of_inBox (hother _ (get_of_shellAt hq)))
  have hfilter : (voxelList (crop_mask m bmin bmax).shape).filter
      (fun p => shellAt (crop_mask m bmin bmax) conn p && aC p) =
      ((voxelList m.shape).filter (fun q => shellAt m conn q && aG q)).map
        (fun q => tSub q bmin) := by
    refine @filter_voxelList_translate bmin (crop_mask m bmin bmax).shape m.shape
      (fun p => shellAt (crop_mask m bmin bmax) conn p && aC p)
      (fun q => shellAt m conn q && aG q) ?_ ?_
    · intro p
      show (shellAt (crop_mask m bmin bmax) conn p && aC p) =
        (shellAt m conn (tAdd bmin p) && aG (tAdd bmin p))
      rw [shellAt_trans hgetM conn p, ha p]
    · intro q hq
      rw [Bool.and_eq_true] at hq
      exact ⟨inShape_of_get (get_of_shellAt hq.1),
        inShape_crop_of_inBox (hm _ (get_of_shellAt hq.1))⟩
  rw [hfilter, List.map_map]
  apply List.map_congr_left
  intro q _
  show signedDistMap (crop_mask other bmin bmax) conn sp (tSub q bmin) =
    signedDistMap other conn sp q
  rw [signedDistMap_trans sp hgetO hshO (tSub q bmin), tAdd_tSub]

/-- Both distance lists of the exclusion-zone variant are crop invariant. -/
lemma cdResultExcl_lists_trans (gt pred ez : Vol) (bmin bmax : Idx) (sp : ℚ × ℚ × ℚ)
    (conn : ℕ) (t : ℚ)
    (hg : ∀ q, gt.get q = true → inBox bmin bmax q)
    (hp : ∀ q, pred.get q = true → inBox bmin bmax q)
    (he : ∀ q, ez.get q = true → inBox bmin bmax q) :
    (cdResultExcl (crop_mask gt bmin bmax) (crop_mask pred bmin bmax)
        (crop_mask ez bmin bmax) sp conn t).distances_gt_to_pred =
      (cdResultExcl gt pred ez sp conn t).distances_gt_to_pred ∧
    (cdResultExcl (crop_mask gt bmin bmax) (crop_mask pred bmin bmax)
        (crop_mask ez bmin bmax) sp conn t).distances_pred_to_gt =
      (cdResultExcl gt pred ez sp conn t).distances_pred_to_gt := by
  have hgetE : ∀ p, (crop_mask ez bmin bmax).get p = ez.get (tAdd bmin p) := crop_get_eq he
  have hshE : shellVoxels (crop_mask ez bmin bmax) conn =
      (shellVoxels ez conn).map (fun q => tSub q bmin) :=
    shellVoxels_trans hgetE (fun q hq => inShape_crop_of_inBox (he _ (get_of_shellAt hq)))
  have ha : ∀ p, (!exclBelow (crop_mask ez bmin bmax) conn sp t p) =
      (!exclBelow ez conn sp t (tAdd bmin p)) := by
    intro p
    rw [exclBelow_trans sp t hgetE hshE p]
  constructor
  · show ((voxelList (crop_mask gt bmin bmax).shape).filter
        (maskedBorders (shellVol (crop_mask gt bmin bmax) conn) (crop_mask ez bmin bmax)
          conn sp t).get).map (signedDistMap (crop_mask pred bmin bmax) conn sp) = _
    rw [List.filter_congr
      (fun p _ => by rw [maskedBorders_get, shellVol_get] :
        ∀ p ∈ voxelList (crop_mask gt bmin bmax).shape,
          (maskedBorders (shellVol (crop_mask gt bmin bmax) conn) (crop_mask ez bmin bmax)
            conn sp t).get p =
          (shellAt (crop_mask gt bmin bmax) conn p &&
            !exclBelow (crop_mask ez bmin bmax) conn sp t p))]
    rw [crop_list_trans gt pred bmin bmax sp conn hg hp
      (fun p => !exclBelow (crop_mask ez bmin bmax) conn sp t p)
      (fun q => !exclBelow ez conn sp t q) ha]
    show _ = ((voxelList gt.shape).filter
        (maskedBorders (shellVol gt conn) ez conn sp t).get).map
      (signedDistMap pred conn sp)
    rw [List.filter_congr
      (fun p _ => by rw [maskedBorders_get, shellVol_get] :
        ∀ p ∈ voxelList gt.shape,
          (maskedBorders (shellVol gt conn) ez conn sp t).get p =
          (shellAt gt conn p && !exclBelow ez conn sp t p))]
  · show ((voxelList (crop_mask pred bmin bmax).shape).filter
        (maskedBorders (shellVol (crop_mask pred bmin bmax) conn) (crop_mask ez bmin bmax)
          conn sp t).get).map (signedDistMap (crop_mask gt bmin bmax) conn sp) = _
    rw [List.filter_congr
      (fun p _ => by rw [maskedBorders_get, shellVol_get] :
        ∀ p ∈ voxelList (crop_mask pred bmin bmax).shape,
          (maskedBorders (shellVol (crop_mask pred bmin bmax) conn) (crop_mask ez bmin bmax)
            conn sp t).get p =
          (shellAt (crop_mask pred bmin bmax) conn p &&
            !exclBelow (crop_mask ez bmin bmax) conn sp t p))]
    rw [crop_list_trans pred gt bmin bmax sp conn hp hg
      (fun p => !exclBelow (crop_mask ez bmin bmax) conn sp t p)
      (fun q => !exclBelow ez conn sp t q) ha]
    show _ = ((voxelList pred.shape).filter
        (maskedBorders (shellVol pred conn) ez conn sp t).get).map
      (signedDistMap gt conn sp)
    rw [List.filter_congr
      (fun p _ => by rw [maskedBorders_get, shellVol_get] :
        ∀ p ∈ voxelList pred.shape,
          (maskedBorders (shellVol pred conn) ez conn sp t).get p =
          (shellAt pred conn p && !exclBelow ez conn sp t p))]

/-- Both distance lists of the no-exclusion variant are crop invariant. -/
lemma cdResultNoExcl_lists_trans (gt pred : Vol) (bmin bmax : Idx) (sp : ℚ × ℚ × ℚ)
    (conn : ℕ) (t : ℚ)
    (hg : ∀ q, gt.get q = true → inBox bmin bmax q)
    (hp : ∀ q, pred.get q = true → inBox bmin bmax q) :
    (cdResultNoExcl (crop_mask gt bmin bmax) (crop_mask pred bmin bmax)
        sp conn t).distances_gt_to_pred =
      (cdResultNoExcl gt pred sp conn t).distances_gt_to_pred ∧
    (cdResultNoExcl (crop_mask gt bmin bmax) (crop_mask pred bmin bmax)
        sp conn t).distances_pred_to_gt =
      (cdResultNoExcl gt pred sp conn t).distances_pred_to_gt := by
  constructor
  · show ((voxelList (crop_mask gt bmin bmax).shape).filter
        (shellVol (crop_mask gt bmin bmax) conn).get).map
      (signedDistMap (crop_mask pred bmin bmax) conn sp) = _
    rw [List.filter_congr
      (fun p _ => by rw [shellVol_get]; simp :
        ∀ p ∈ voxelList (crop_mask gt bmin bmax).shape,
          (shellVol (crop_mask gt bmin bmax) conn).get p =
          (shellAt (crop_mask gt bmin bmax) conn p && (fun _ : Idx => true) p))]
    rw [crop_list_trans gt pred bmin bmax sp conn hg hp
      (fun _ => true) (fun _ => true) (fun _ => rfl)]
    show _ = ((voxelList gt.shape).filter (shellVol gt conn).get).map
      (signedDistMap pred conn sp)
    rw [List.filter_congr
      (fun p _ => by rw [shellVol_get]; simp :
        ∀ p ∈ voxelList gt.shape,
          (shellVol gt conn).get p = (shellAt gt conn p && (fun _ : Idx => true) p))]
  · show ((voxelList (crop_mask pred bmin bmax).shape).filter
        (shellVol (crop_mask pred bmin bmax) conn).get).map
      (signedDistMap (crop_mask gt bmin bmax) conn sp) = _
    rw [List.filter_congr
      (fun p _ => by rw [shellVol_get]; simp :
        ∀ p ∈ voxelList (crop_mask pred bmin bmax).shape,
          (shellVol (crop_mask pred bmin bmax) conn).get p =
          (shellAt (crop_mask pred bmin bmax) conn p && (fun _ : Idx => true) p))]
    rw [crop_list_trans pred gt bmin bmax sp conn hp hg
      (fun _ => true) (fun _ => true) (fun _ => rfl)]
    show _ = ((voxelList pred.shape).filter (shellVol pred conn).get).map
      (signedDistMap gt conn sp)
    rw [List.filter_congr
      (fun p _ => by rw [shellVol_get]; simp :
        ∀ p ∈ voxelList pred.shape,
          (shellVol pred conn).get p = (shellAt pred conn p && (fun _ : Idx => true) p))]

/-- Zeroing shell voxels only filters the extracted lists: with the same
masks, the exclusion-zone variant's lists are sublists of the plain ones. -/
lemma excl_lists_sublist (gt pred ez : Vol) (sp : ℚ × ℚ × ℚ) (conn : ℕ) (t : ℚ) :
    (cdResultExcl gt pred ez sp conn t).distances_gt_to_pred.Sublist
      (cdResultNoExcl gt pred sp conn t).distances_gt_to_pred ∧
    (cdResultExcl gt pred ez sp conn t).distances_pred_to_gt.Sublist
      (cdResultNoExcl gt pred sp conn t).distances_pred_to_gt := by
  constructor
  · refine List.Sublist.map _ (List.monotone_filter_right _ ?_)
    intro p hp
    rw [maskedBorders_get, Bool.and_eq_true] at hp
    exact hp.1
  · refine List.Sublist.map _ (List.monotone_filter_right _ ?_)
    intro p hp
    rw [maskedBorders_get, Bool.and_eq_true] at hp
    exact hp.1

/-- C7: with an exclusion zone supplied (same-shape inputs, both runs
succeeding), each returned distance list is a sub-multiset — in fact a
subperm — of the corresponding list returned by the same run with no
exclusion zone. -/
theorem c7_exclusion_monotonicity (mask_gt mask_pred ez : Vol) (sp : ℚ × ℚ × ℚ)
    (conn : ℕ) (crop : Bool) (t : ℚ)
    (hshp : mask_pred.shape = mask_gt.shape) (hshe : ez.shape = mask_gt.shape)
    (h1 : cdOk mask_gt mask_pred (some ez) conn crop = true)
    (h2 : cdOk mask_gt mask_pred none conn crop = true) :
    ∃ lA lB : List EReal × List EReal,
      (compute_distances mask_gt mask_pred (some ez) sp conn crop t).map
        (fun r => (r.distances_gt_to_pred, r.distances_pred_to_gt)) = .ok lA ∧
      (compute_distances mask_gt mask_pred none sp conn crop t).map
        (fun r => (r.distances_gt_to_pred, r.distances_pred_to_gt)) = .ok lB ∧
      List.Subperm lA.1 lB.1 ∧ List.Subperm lA.2 lB.2 := by
  cases crop with
  | false =>
    have hmp : shellVoxels mask_pred conn ≠ [] := by
      have hcp : cropPhase mask_gt mask_pred (some ez) false =
          .ok (mask_gt, mask_pred, some ez) := rfl
      rw [cdOk, hcp] at h1
      simpa [List.isEmpty_iff] using h1
    have hsub := excl_lists_sublist mask_gt mask_pred ez sp conn t
    refine ⟨((cdResultExcl mask_gt mask_pred ez sp conn t).distances_gt_to_pred,
      (cdResultExcl mask_gt mask_pred ez sp conn t).distances_pred_to_gt),
      ((cdResultNoExcl mask_gt mask_pred sp conn t).distances_gt_to_pred,
      (cdResultNoExcl mask_gt mask_pred sp conn t).distances_pred_to_gt), ?_, ?_,
      hsub.1.subperm, hsub.2.subperm⟩
    · rw [compute_distances_nocrop, cdCore_ok_excl hmp]
      rfl
    · rw [compute_distances_nocrop, cdCore_ok_noexcl hmp]
      rfl
  | true =>
    cases hbbA : compute_bounding_box mask_gt mask_pred ez with
    | error e =>
      have hcpA : cropPhase mask_gt mask_pred (some ez) true = .error e := by
        rw [cropPhase_true_some, hbbA]
      rw [cdOk, hcpA] at h1
      cases h1
    | ok bbA =>
    obtain ⟨bmin, bmax⟩ := bbA
    have hcpA : cropPhase mask_gt mask_pred (some ez) true =
        .ok (crop_mask mask_gt bmin bmax, crop_mask mask_pred bmin bmax,
          some (crop_mask ez bmin bmax)) := by
      rw [cropPhase_true_some, hbbA]
    have hmpA : shellVoxels (crop_mask mask_pred bmin bmax) conn ≠ [] := by
      rw [cdOk, hcpA] at h1
      simpa [List.isEmpty_iff] using h1
    have hboundsA := compute_bounding_box_ok_bounds hbbA
    have hg : ∀ q, mask_gt.get q = true → inBox bmin bmax q := by
      intro q hq
      have hu : (unionVol mask_gt mask_pred ez).get q = true := by
        show (inShape mask_gt.shape q &&
          (mask_gt.get q || mask_pred.get q || ez.get q)) = true
        rw [inShape_of_get hq, hq]
        simp
      exact hboundsA.2.2 q hu
    have hp : ∀ q, mask_pred.get q = true → inBox bmin bmax q := by
      intro q hq
      have hu : (unionVol mask_gt mask_pred ez).get q = true := by
        show (inShape mask_gt.shape q &&
          (mask_gt.get q || mask_pred.get q || ez.get q)) = true
        have := inShape_of_get hq
        rw [hshp] at this
        rw [this, hq]
        simp
      exact hboundsA.2.2 q hu
    have he : ∀ q, ez.get q = true → inBox bmin bmax q := by
      intro q hq
      have hu : (unionVol mask_gt mask_pred ez).get q = true := by
        show (inShape mask_gt.shape q &&
          (mask_gt.get q || mask_pred.get q || ez.get q)) = true
        have := inShape_of_get hq
        rw [hshe] at this
        rw [this, hq]
        simp
      exact hboundsA.2.2 q hu
    cases hbbB : compute_bounding_box mask_gt mask_pred mask_gt with
    | error e =>
      have hcpB : cropPhase mask_gt mask_pred none true = .error e := by
        rw [cropPhase_true_none, hbbB]
      rw [cdOk, hcpB] at h2
      cases h2
    | ok bbB =>
    obtain ⟨bminB, bmaxB⟩ := bbB
    have hcpB : cropPhase mask_gt mask_pred none true =
        .ok (crop_mask mask_gt bminB bmaxB, crop_mask mask_pred bminB bmaxB, none) := by
      rw [cropPhase_true_none, hbbB]
    have hmpB : shellVoxels (crop_mask mask_pred bminB bmaxB) conn ≠ [] := by
      rw [cdOk, hcpB] at h2
      simpa [List.isEmpty_iff] using h2
    have hboundsB := compute_bounding_box_ok_bounds hbbB
    have hgB : ∀ q, mask_gt.get q = true → inBox bminB bmaxB q := by
      intro q hq
      have hu : (unionVol mask_gt mask_pred mask_gt).get q = true := by
        show (inShape mask_gt.shape q &&
          (mask_gt.get q || mask_pred.get q || mask_gt.get q)) = true
        rw [inShape_of_get hq, hq]
        simp
      exact hboundsB.2.2 q hu
    have hpB : ∀ q, mask_pred.get q = true → inBox bminB bmaxB q := by
      intro q hq
      have hu : (unionVol mask_gt mask_pred mask_gt).get q = true := by
        show (inShape mask_gt.shape q &&
          (mask_gt.get q || mask_pred.get q || mask_gt.get q)) = true
        have := inShape_of_get hq
        rw [hshp] at this
        rw [this, hq]
        simp
      exact hboundsB.2.2 q hu
    have htransA := cdResultExcl_lists_trans mask_gt mask_pred ez bmin bmax sp conn t hg hp he
    have htransB := cdResultNoExcl_lists_trans mask_gt mask_pred bminB bmaxB sp conn t hgB hpB
    have hsub := excl_lists_sublist mask_gt mask_pred ez sp conn t
    refine ⟨((cdResultExcl mask_gt mask_pred ez sp conn t).distances_gt_to_pred,
      (cdResultExcl mask_gt mask_pred ez sp conn t).distances_pred_to_gt),
      ((cdResultNoExcl mask_gt mask_pred sp conn t).distances_gt_to_pred,
      (cdResultNoExcl mask_gt mask_pred sp conn t).distances_pred_to_gt), ?_, ?_,
      hsub.1.subperm, hsub.2.subperm⟩
    · rw [compute_distances_eq_core mask_gt mask_pred (some ez) true _ _ _ sp conn t hcpA,
        cdCore_ok_excl hmpA]
      show Except.ok
        ((cdResultExcl (crop_mask mask_gt bmin bmax) (crop_mask mask_pred bmin bmax)
            (crop_mask ez bmin bmax) sp conn t).distances_gt_to_pred,
         (cdResultExcl (crop_mask mask_gt bmin bmax) (crop_mask mask_pred bmin bmax)
            (crop_mask ez bmin bmax) sp conn t).distances_pred_to_gt) = _
      rw [htransA.1, htransA.2]
    · rw [compute_distances_eq_core mask_gt mask_pred none true _ _ _ sp conn t hcpB,
        cdCore_ok_noexcl hmpB]
      show Except.ok
        ((cdResultNoExcl (crop_mask mask_gt bminB bmaxB) (crop_mask mask_pred bminB bmaxB)
            sp conn t).distances_gt_to_pred,
         (cdResultNoExcl (crop_mask mask_gt bminB bmaxB) (crop_mask mask_pred bminB bmaxB)
            sp conn t).distances_pred_to_gt) = _
      rw [htransB.1, htransB.2]

/-- Witness for C7 at a concrete pair of runs. -/
theorem c7_exclusion_monotonicity_witness :
    exLineEnd9.shape = exLineEnd9.shape ∧ exLineStart9.shape = exLineEnd9.shape ∧
    cdOk exLineEnd9 exLineEnd9 (some exLineStart9) 1 false = true ∧
    cdOk exLineEnd9 exLineEnd9 none 1 false = true ∧
    (∃ lA lB : List EReal × List EReal,
      (compute_distances exLineEnd9 exLineEnd9 (some exLineStart9) (1, (1, 1)) 1 false 5).map
        (fun r => (r.distances_gt_to_pred, r.distances_pred_to_gt)) = .ok lA ∧
      (compute_distances exLineEnd9 exLineEnd9 none (1, (1, 1)) 1 false 5).map
        (fun r => (r.distances_gt_to_pred, r.distances_pred_to_gt)) = .ok lB ∧
      List.Subperm lA.1 lB.1 ∧ List.Subperm lA.2 lB.2) :=
  ⟨rfl, rfl, by decide, by decide,
    c7_exclusion_monotonicity exLineEnd9 exLineEnd9 exLineStart9 (1, (1, 1)) 1 false 5
      rfl rfl (by decide) (by decide)⟩

end QAM
